import Mathlib

/-!
Shallow embedding of `temba/triggers/models.py` (trigger matching, dispatch,
archive/restore and import logic of the rapidpro trigger engine).

Timestamps are modelled as natural numbers, primary keys as natural numbers,
and the persisted record stores as lists.  Each Django queryset `update` /
`save` is modelled as a `List.map` over the trigger store; a `save()` of an
in-memory snapshot writes the snapshot's fields back, exactly as the ORM does.
External collaborator models (`Flow`, `Contact`, `ContactGroup`, `Channel`,
`FlowRun`, `Msg`) are not part of `src/`; their fields are modelled from the
spec (§3, §6) restricted to the attributes this file's code reads.
-/

namespace Rapidpro

/-- Trigger type code `'K'` (source line 16). -/
def KEYWORD_TRIGGER : Char := 'K'

/-- Trigger type code `'S'` (source line 17). -/
def SCHEDULE_TRIGGER : Char := 'S'

/-- Trigger type code `'M'` (source line 18). -/
def MISSED_CALL_TRIGGER : Char := 'M'

/-- Trigger type code `'C'` (source line 19). -/
def CATCH_ALL_TRIGGER : Char := 'C'

/-- Trigger type code `'F'` (source line 20). -/
def FOLLOW_TRIGGER : Char := 'F'

/-- Trigger type code `'V'` (source line 21). -/
def INBOUND_CALL_TRIGGER : Char := 'V'

/-- The `Trigger` model (source lines 31-68), together with the `SmartModel`
fields the code reads (`is_active`, `modified_on`). -/
structure Trigger where
  pk : Nat
  org : Nat
  keyword : Option String
  flow : Option Nat
  last_triggered : Option Nat
  trigger_count : Nat
  is_archived : Bool
  groups : List Nat
  contacts : List Nat
  trigger_type : Char
  channel : Option Nat
  is_active : Bool
  modified_on : Nat
deriving DecidableEq, Repr

/-- Modelled from the spec: the workflow (`Flow`) collaborator, restricted to
the fields read by the trigger code (`is_active`, `is_archived`,
`ignore_triggers`, `org`, `pk`, `name`). -/
structure Flow where
  pk : Nat
  org : Nat
  name : String
  is_active : Bool
  is_archived : Bool
  ignore_triggers : Bool
deriving DecidableEq, Repr

/-- Modelled from the spec: a contact group (pk, org, name, active flag). -/
structure ContactGroup where
  pk : Nat
  org : Nat
  name : String
  is_active : Bool
deriving DecidableEq, Repr

/-- Modelled from the spec: a contact with its group memberships (pks). -/
structure Contact where
  pk : Nat
  org : Nat
  groups : List Nat
deriving DecidableEq, Repr

/-- Modelled from the spec: a channel registered to an organization. -/
structure Channel where
  pk : Nat
  org : Nat
deriving DecidableEq, Repr

/-- Modelled from the spec: an inbound message (contact, text, creation time). -/
structure Msg where
  pk : Nat
  org : Nat
  contact : Contact
  text : String
  created_on : Nat
deriving DecidableEq, Repr

/-- Modelled from the spec: a workflow run (`FlowRun`), restricted to the
fields read by `find_and_handle` (`is_active`, `contact`, `flow`,
`created_on`) and the external `is_completed()` predicate, modelled as the
field `completed`. -/
structure FlowRun where
  pk : Nat
  contact : Nat
  flow : Nat
  is_active : Bool
  created_on : Nat
  completed : Bool
deriving DecidableEq, Repr

/-- The persisted state: the record stores the trigger code touches, plus a
fresh-pk counter for record creation during import. -/
structure DB where
  triggers : List Trigger
  flows : List Flow
  groups : List ContactGroup
  runs : List FlowRun
  channels : List Channel
  nextPk : Nat
deriving DecidableEq, Repr

/-- A recorded invocation of the workflow-start contract
`flow.start(groups, contacts, start_msg, restart_participants)`. -/
structure FlowStart where
  flow : Option Nat
  groups : List Nat
  contacts : List Nat
  start_msg : Option Nat
  restart_participants : Bool
deriving DecidableEq, Repr

/-- Look up a flow by pk. -/
def findFlow (db : DB) (p : Nat) : Option Flow :=
  db.flows.find? (fun f => f.pk == p)

/-- Look up a contact group's name by pk (used for `order_by('groups__name')`). -/
def findGroupName (db : DB) (p : Nat) : Option String :=
  (db.groups.find? (fun g => g.pk == p)).map (fun g => g.name)

/-- Look up a trigger row by pk. -/
def getRow (l : List Trigger) (p : Nat) : Option Trigger :=
  l.find? (fun t => t.pk == p)

/-- Python `str.lower()` (character-wise, over the string's character list). -/
def lowerStr (s : String) : String := String.mk (s.data.map Char.toLower)

/-- Python `str.strip()`: drop leading and trailing whitespace. -/
def pyStrip (s : String) : List Char :=
  ((s.data.dropWhile Char.isWhitespace).reverse.dropWhile Char.isWhitespace).reverse

/-- Django `keyword__iexact=kw` on the nullable keyword column: a NULL
keyword never matches; otherwise comparison is case-insensitive. -/
def iexactB (a : Option String) (kw : String) : Bool :=
  match a with
  | some s => lowerStr s == lowerStr kw
  | none => false

/-- Python truthiness of an optional string (`if trigger.keyword:`). -/
def kwTruthy (a : Option String) : Bool :=
  match a with
  | some s => !(s == "")
  | none => false

/-- A regex word character for `re.split(r"[\W]+", ..., flags=re.UNICODE)`:
alphanumeric or underscore. -/
def isWordChar (c : Char) : Bool := c.isAlphanum || c == '_'

/-- `re.split(r"[\W]+", s)`: split on maximal runs of non-word characters.
Leading/trailing delimiter runs contribute empty tokens, as in Python.  The
accumulator is `some acc` while a token is being read and `none` inside a
delimiter run whose preceding token has already been emitted. -/
def splitNonWord : List Char → Option (List Char) → List String
  | [], some acc => [String.mk acc.reverse]
  | [], none => [String.mk []]
  | c :: cs, some acc =>
    if isWordChar c then splitNonWord cs (some (c :: acc))
    else String.mk acc.reverse :: splitNonWord cs none
  | c :: cs, none =>
    if isWordChar c then splitNonWord cs (some [c]) else splitNonWord cs none

/-- Keyword extraction of `find_and_handle` (source lines 181-193): split the
stripped text on non-word runs, drop leading empty tokens, lower-case the
first token; `none` when no keyword can be extracted. -/
def find_keyword (text : String) : Option String :=
  let words := splitNonWord (pyStrip text) (some [])
  let words := words.dropWhile (fun w => w == "")
  match words with
  | [] => none
  | w :: _ =>
    let kw := lowerStr w
    if kw == "" then none else some kw

/-- Whether a run's flow passes the `flow__is_active=True, flow__is_archived=False`
join conditions. -/
def run_flow_ok (db : DB) (r : FlowRun) : Bool :=
  match findFlow db r.flow with
  | some f => f.is_active && !f.is_archived
  | none => false

/-- Strictly-earlier-in-result-order for `order_by("-created_on", "-pk")`. -/
def later_run (a b : FlowRun) : Bool :=
  a.created_on > b.created_on || (a.created_on == b.created_on && a.pk > b.pk)

/-- First element of a list under a strict "comes before" ordering; keeps the
leftmost element among ties (models taking row `[0]` of an ordered queryset). -/
def selectFirstBy (better : α → α → Bool) (l : List α) : Option α :=
  l.foldl (fun best x =>
    match best with
    | none => some x
    | some b => if better x b then some x else some b) none

/-- The `active_run` query of `find_and_handle` (source lines 195-196). -/
def fah_active_run (db : DB) (c : Contact) : Option FlowRun :=
  selectFirstBy later_run
    (db.runs.filter (fun r => r.is_active && r.contact == c.pk && run_flow_ok db r))

/-- The suppression test of `find_and_handle` (source line 198):
`active_run and active_run.flow.ignore_triggers and not active_run.is_completed()`. -/
def fah_suppressed (db : DB) (c : Contact) : Bool :=
  match fah_active_run db c with
  | some r =>
    (match findFlow db r.flow with
     | some f => f.ignore_triggers
     | none => false) && !r.completed
  | none => false

/-- Whether a trigger's flow passes the `flow__is_archived=False,
flow__is_active=True` join conditions (a NULL flow fails the inner join). -/
def trig_flow_ok (db : DB) (t : Trigger) : Bool :=
  match t.flow with
  | some fp =>
    match findFlow db fp with
    | some f => !f.is_archived && f.is_active
    | none => false
  | none => false

/-- `groups__in=groups_ids`: the trigger's group set intersects the given pks. -/
def groupsIntersect (tgroups cgroups : List Nat) : Bool :=
  tgroups.any (fun g => cgroups.contains g)

/-- Phase-A candidates of `find_and_handle` (source lines 204-205), in store
order: active, non-archived, same org, case-insensitive keyword match, live
flow, and group set intersecting the contact's groups. -/
def fah_matchingA (db : DB) (msg : Msg) (kw : String) : List Trigger :=
  db.triggers.filter (fun t =>
    !t.is_archived && t.is_active && t.org == msg.org && iexactB t.keyword kw &&
    trig_flow_ok db t && groupsIntersect t.groups msg.contact.groups)

/-- Phase-B candidates of `find_and_handle` (source lines 209-210): as phase A
but with `groups=None` (an empty group set). -/
def fah_matchingB (db : DB) (msg : Msg) (kw : String) : List Trigger :=
  db.triggers.filter (fun t =>
    !t.is_archived && t.is_active && t.org == msg.org && iexactB t.keyword kw &&
    trig_flow_ok db t && t.groups.isEmpty)

/-- The sort key of `order_by('groups__name')` for a phase-A row: the smallest
name among the trigger's groups that match the contact. -/
def minMatchGroupName (db : DB) (cgroups : List Nat) (t : Trigger) : String :=
  match (t.groups.filter (fun g => cgroups.contains g)).map
      (fun g => (findGroupName db g).getD "") with
  | [] => ""
  | n :: ns => ns.foldl (fun a b => if b < a then b else a) n

/-- Strictly-earlier for `order_by('groups__name')`. -/
def better_groupname (db : DB) (cgroups : List Nat) (a b : Trigger) : Bool :=
  decide (minMatchGroupName db cgroups a < minMatchGroupName db cgroups b)

/-- `matching[0]` of the keyword-dispatch two-phase search: the first phase-A
row in group-name order, else the first phase-B row. -/
def fah_selected_match (db : DB) (msg : Msg) (kw : String) : Option Trigger :=
  match selectFirstBy (better_groupname db msg.contact.groups) (fah_matchingA db msg kw) with
  | some t => some t
  | none => (fah_matchingB db msg kw).head?

/-- The trigger `find_and_handle` fires, if any: keyword extraction, then the
run-state suppression, then the two-phase match. -/
def fah_selected (db : DB) (msg : Msg) : Option Trigger :=
  match find_keyword msg.text with
  | none => none
  | some kw =>
    if fah_suppressed db msg.contact then none
    else fah_selected_match db msg kw

/-- Stamp firing statistics on a trigger snapshot (`last_triggered = τ`,
`trigger_count += 1`). -/
def stampTrigger (t : Trigger) (τ : Nat) : Trigger :=
  { t with last_triggered := some τ, trigger_count := t.trigger_count + 1 }

/-- `Trigger.find_and_handle(msg)` (source lines 179-226).  Returns the new
state, the boolean result, and the workflow starts performed.  The ambient
clock `now` is passed to every dispatch operation; this one never reads it —
the source stamps `msg.created_on` (line 217), not `timezone.now()`. -/
def find_and_handle (db : DB) (msg : Msg) (now : Nat) : DB × Bool × List FlowStart :=
  match fah_selected db msg with
  | none => (db, false, [])
  | some t =>
    let db' := { db with triggers := db.triggers.map (fun x =>
      if x.pk == t.pk then stampTrigger t msg.created_on else x) }
    (db', true, [{ flow := t.flow, groups := [], contacts := [msg.contact.pk],
                   start_msg := some msg.pk, restart_participants := true }])

/-- Phase-A candidates of `find_flow_for_inbound_call` (source lines 234-235). -/
def ficall_matchingA (db : DB) (c : Contact) : List Trigger :=
  db.triggers.filter (fun t =>
    !t.is_archived && t.is_active && t.org == c.org &&
    t.trigger_type == INBOUND_CALL_TRIGGER && trig_flow_ok db t &&
    groupsIntersect t.groups c.groups)

/-- Phase-B candidates of `find_flow_for_inbound_call` (source lines 239-240). -/
def ficall_matchingB (db : DB) (c : Contact) : List Trigger :=
  db.triggers.filter (fun t =>
    !t.is_archived && t.is_active && t.org == c.org &&
    t.trigger_type == INBOUND_CALL_TRIGGER && trig_flow_ok db t && t.groups.isEmpty)

/-- `matching[0]` of `find_flow_for_inbound_call`'s two-phase search. -/
def ficall_selected (db : DB) (c : Contact) : Option Trigger :=
  match selectFirstBy (better_groupname db c.groups) (ficall_matchingA db c) with
  | some t => some t
  | none => (ficall_matchingB db c).head?

/-- `Trigger.find_flow_for_inbound_call(contact)` (source lines 228-250):
selects one inbound-call trigger by group specificity, stamps its statistics
with `timezone.now()`, and returns its flow.  It performs no workflow start
itself (the caller receives the flow). -/
def find_flow_for_inbound_call (db : DB) (c : Contact) (now : Nat) :
    DB × Option Nat × List FlowStart :=
  match ficall_selected db c with
  | none => (db, none, [])
  | some t =>
    let db' := { db with triggers := db.triggers.map (fun x =>
      if x.pk == t.pk then stampTrigger t now else x) }
    (db', t.flow, [])

/-- The entity union accepted by `catch_triggers` (source lines 157-167);
`Msg`, `Call`/`IVRCall`, or `Contact`.  Other inputs raise and are not
representable here. -/
inductive Entity where
  | msgE (m : Msg)
  | callE (org : Nat) (contact : Contact)
  | contactE (c : Contact)
deriving DecidableEq, Repr

/-- `entity.org` as read on source line 169. -/
def Entity.org : Entity → Nat
  | .msgE m => m.org
  | .callE o _ => o
  | .contactE c => c.org

/-- The contact extracted from the entity (source lines 157-165). -/
def Entity.contact : Entity → Contact
  | .msgE m => m.contact
  | .callE _ c => c
  | .contactE c => c

/-- The `start_msg` extracted from the entity (source lines 157-165). -/
def Entity.startMsg : Entity → Option Nat
  | .msgE m => some m.pk
  | .callE _ _ => none
  | .contactE _ => none

/-- `Trigger.get_triggers_of_type(org, trigger_type)` (source lines 151-153). -/
def get_triggers_of_type (db : DB) (org : Nat) (tt : Char) : List Trigger :=
  db.triggers.filter (fun t =>
    t.org == org && t.trigger_type == tt && t.is_active && !t.is_archived)

/-- The matched set of `catch_triggers` (source lines 169-172): every active,
non-archived trigger of the type in the entity's org, channel-filtered when a
channel id is supplied. -/
def catch_matched (db : DB) (e : Entity) (tt : Char) (channel_id : Option Nat) :
    List Trigger :=
  let triggers := get_triggers_of_type db e.org tt
  match channel_id with
  | some cid => triggers.filter (fun t => t.channel == some cid)
  | none => triggers

/-- `Trigger.catch_triggers(entity, trigger_type, channel_id)` (source lines
155-177): starts the flow of every matched trigger for the entity's contact,
with `restart_participants=True`; returns whether any trigger matched.  The
source updates no firing statistics here. -/
def catch_triggers (db : DB) (e : Entity) (tt : Char) (channel_id : Option Nat) :
    DB × Bool × List FlowStart :=
  let triggers := catch_matched db e tt channel_id
  (db, !triggers.isEmpty,
   triggers.map (fun t =>
     { flow := t.flow, groups := [], contacts := [e.contact.pk],
       start_msg := e.startMsg, restart_participants := true }))

/-- `Trigger.apply_action_archive(triggers)` (source lines 252-255). -/
def apply_action_archive (db : DB) (pks : List Nat) : DB × List Nat :=
  let db' := { db with triggers := db.triggers.map (fun t =>
    if pks.contains t.pk then { t with is_archived := true } else t) }
  ((db'), (db'.triggers.filter (fun t => pks.contains t.pk)).map (fun t => t.pk))

/-- Strictly-earlier-in-result-order for
`order_by('-last_triggered', '-modified_on')`; a NULL `last_triggered` sorts
first on a descending key (SQL `NULLS FIRST`). -/
def optAfter : Option Nat → Option Nat → Bool
  | none, none => false
  | none, some _ => true
  | some _, none => false
  | some x, some y => x > y

/-- The comparison behind the missed-call / catch-all restore winner. -/
def mcBetter (a b : Trigger) : Bool :=
  optAfter a.last_triggered b.last_triggered ||
    (a.last_triggered == b.last_triggered && a.modified_on > b.modified_on)

/-- The rows of the input queryset: triggers whose pk is in the selection. -/
def inputTriggers (db : DB) (pks : List Nat) : List Trigger :=
  db.triggers.filter (fun t => pks.contains t.pk)

/-- Effect of one iteration of the `remaining_triggers` loop of
`apply_action_restore` (source lines 264-273) on a stored row `u`, for the
loop snapshot `t`: first the keyword-displacement `update(is_archived=True)`
over same-org, exactly-equal-keyword, active, non-archived Keyword triggers
(only when `t.keyword` is truthy), then `t.save()` with `t.is_archived=False`,
which writes the snapshot back over the row with `t`'s pk. -/
def restore_step_row (t : Trigger) (u : Trigger) : Trigger :=
  let u1 :=
    if kwTruthy t.keyword &&
       (u.org == t.org && u.keyword == t.keyword && !u.is_archived &&
        u.is_active && u.trigger_type == KEYWORD_TRIGGER)
    then { u with is_archived := true } else u
  if u1.pk == t.pk then { t with is_archived := false } else u1

/-- One iteration of the `remaining_triggers` loop, as a store update. -/
def restore_step (db : DB) (t : Trigger) : DB :=
  { db with triggers := db.triggers.map (restore_step_row t) }

/-- Row effect of the category-wide archive `update` of the missed-call /
catch-all branch (source lines 277-279 and 285-287): archive every
`is_active` trigger of the type in the organization. -/
def restore_archive_row (org : Nat) (tt : Char) (u : Trigger) : Trigger :=
  if u.org == org && u.trigger_type == tt && u.is_active
  then { u with is_archived := true } else u

/-- The category-wide archive `update` as a store update. -/
def restore_archive_cat (db : DB) (org : Nat) (tt : Char) : DB :=
  { db with triggers := db.triggers.map (restore_archive_row org tt) }

/-- Row effect of `chosen.is_archived = False; chosen.save()` (source lines
280-281 and 288-289): write the snapshot back unarchived over its pk. -/
def restore_save_row (t u : Trigger) : Trigger :=
  if u.pk == t.pk then { t with is_archived := false } else u

/-- The winner's unarchiving save as a store update. -/
def restore_save_unarchived (db : DB) (t : Trigger) : DB :=
  { db with triggers := db.triggers.map (restore_save_row t) }

/-- The rows of the input queryset of a given trigger type (the
`m_last_triggered` / `c_last_triggered` querysets before ordering, source
lines 259-260, re-evaluated against the current store wherever they are
read). -/
def mcInput (db : DB) (pks : List Nat) (tt : Char) : List Trigger :=
  (inputTriggers db pks).filter (fun t => t.trigger_type == tt)

/-- The `remaining_triggers` queryset (source line 262): input rows whose pk
is in neither the missed-call nor the catch-all partition of the input. -/
def restore_remaining_list (db : DB) (pks : List Nat) : List Trigger :=
  let mPks := (mcInput db pks MISSED_CALL_TRIGGER).map (fun t => t.pk)
  let cPks := (mcInput db pks CATCH_ALL_TRIGGER).map (fun t => t.pk)
  (inputTriggers db pks).filter
    (fun t => !mPks.contains t.pk && !cPks.contains t.pk)

/-- The `remaining_triggers` loop (source lines 264-273): the row list is
snapshotted once, then each iteration displaces same-keyword Keyword triggers
and saves the snapshot unarchived. -/
def restore_remaining (db : DB) (pks : List Nat) : DB :=
  (restore_remaining_list db pks).foldl restore_step db

/-- One exclusive-category branch of the restore (source lines 275-281 for
missed-call, 283-289 for catch-all): when the input holds triggers of the
type, the winner under `order_by('-last_triggered', '-modified_on')` is
chosen, every `is_active` trigger of the type in its org is archived, and the
winner's snapshot is saved unarchived. -/
def restore_cat_branch (db : DB) (pks : List Nat) (tt : Char) : DB :=
  match selectFirstBy mcBetter (mcInput db pks tt) with
  | some chosen =>
    restore_save_unarchived (restore_archive_cat db chosen.org tt) chosen
  | none => db

/-- `Trigger.apply_action_restore(triggers)` (source lines 257-291).  The
input queryset is modelled by its pk selection; `m`/`c` partitions are
excluded from `remaining` by pk, the remaining loop runs over a snapshot of
the store, and the missed-call / catch-all winners are re-read from the store
after the loop, exactly as the querysets are evaluated in the source. -/
def apply_action_restore (db : DB) (pks : List Nat) : DB × List Nat :=
  let db1 := restore_remaining db pks
  let db2 := restore_cat_branch db1 pks MISSED_CALL_TRIGGER
  let db3 := restore_cat_branch db2 pks CATCH_ALL_TRIGGER
  (db3, (inputTriggers db3 pks).map (fun t => t.pk))

/-- The distinguishable results of `Trigger.fire()`: Python `None`, Python
`False`, or a started workflow run. -/
inductive FireResult where
  | pyNone
  | pyFalse
  | started
deriving DecidableEq, Repr

/-- The channels of an organization (`org.channels.all()`). -/
def org_channels (db : DB) (org : Nat) : List Channel :=
  db.channels.filter (fun c => c.org == org)

/-- `Trigger.fire()` (source lines 293-311).  `none` models the crash of
dereferencing a missing flow (`self.flow.org` with `self.flow is None`, an
unrepresentable state under a live foreign key); otherwise the pair of the
resulting state, the Python return value, and the workflow starts. -/
def fire (db : DB) (t : Trigger) (now : Nat) :
    Option (DB × FireResult × List FlowStart) :=
  if t.is_archived || !t.is_active then some (db, .pyNone, [])
  else
    match t.flow with
    | none => none
    | some fp =>
      match findFlow db fp with
      | none => none
      | some f =>
        if (org_channels db f.org).isEmpty then some (db, .pyNone, [])
        else if !t.groups.isEmpty || !t.contacts.isEmpty then
          let db' := { db with triggers := db.triggers.map (fun x =>
            if x.pk == t.pk then stampTrigger t now else x) }
          some (db', .started,
            [{ flow := some fp, groups := t.groups, contacts := t.contacts,
               start_msg := none, restart_participants := true }])
        else some (db, .pyFalse, [])

/-- Import errors: the version guard (`ValueError` on a document version below
`EARLIEST_IMPORT_VERSION`, named `UnsupportedVersionError` by the spec) and a
missing workflow (`Flow.objects.get` raising, named `NotFoundError`). -/
inductive ImportError where
  | unsupportedVersion
  | flowNotFound
deriving DecidableEq, Repr

/-- A group reference of the export document. -/
structure GroupRef where
  id : Nat
  name : String
deriving DecidableEq, Repr

/-- A flow reference of the export document. -/
structure FlowRef where
  id : Nat
  name : String
deriving DecidableEq, Repr

/-- One trigger entry of the export document (shape of `as_json`). -/
structure TriggerSpec where
  trigger_type : Char
  keyword : Option String
  flow : FlowRef
  groups : List GroupRef
  channel : Option Nat
deriving DecidableEq, Repr

/-- The export document envelope: `version`, optional `site`, optional
`triggers` list (`'triggers' in exported_json`). -/
structure ExportDoc where
  version : Nat
  site : Option String
  triggers : Option (List TriggerSpec)
deriving DecidableEq, Repr

/-- Python truthiness of an optional site string. -/
def strTruthy (a : Option String) : Bool :=
  match a with
  | some s => !(s == "")
  | none => false

/-- Group resolution of `import_triggers` (source lines 101-120): id match
when the caller's site matches the document's site, else name match, else
create a new group; reactivate an inactive match.  Returns the new state and
the resolved group pk. -/
def resolve_group (db : DB) (org : Nat) (site docSite : Option String)
    (gs : GroupRef) : DB × Nat :=
  let byId :=
    if strTruthy site && site == docSite then
      db.groups.find? (fun g => g.org == org && g.pk == gs.id)
    else none
  let found :=
    match byId with
    | some g => some g
    | none => db.groups.find? (fun g => g.org == org && g.name == gs.name)
  match found with
  | some g =>
    if !g.is_active then
      ({ db with groups := db.groups.map (fun x =>
          if x.pk == g.pk then { g with is_active := true } else x) }, g.pk)
    else (db, g.pk)
  | none =>
    let g : ContactGroup := { pk := db.nextPk, org := org, name := gs.name, is_active := true }
    ({ db with groups := db.groups ++ [g], nextPk := db.nextPk + 1 }, g.pk)

/-- Processing of one trigger entry of `import_triggers` (source lines
99-148): resolve groups, look up the flow (error when absent), search an
existing trigger by org/type (optionally keyword-iexact and group overlap),
then un-archive-and-repoint or create. -/
def import_one (db : DB) (org : Nat) (site docSite : Option String)
    (spec : TriggerSpec) : DB × Option ImportError :=
  let resolved := spec.groups.foldl
    (fun (acc : DB × List Nat) gs =>
      let r := resolve_group acc.1 org site docSite gs
      (r.1, acc.2 ++ [r.2])) (db, [])
  let db := resolved.1
  let groupPks := resolved.2
  match db.flows.find? (fun f => f.org == org && f.pk == spec.flow.id) with
  | none => (db, some .flowNotFound)
  | some flow =>
    let existing := db.triggers.filter
      (fun t => t.org == org && t.trigger_type == spec.trigger_type)
    let existing :=
      if kwTruthy spec.keyword then
        existing.filter (fun t =>
          match spec.keyword with
          | some s => iexactB t.keyword s
          | none => false)
      else existing
    let existing :=
      if !groupPks.isEmpty then
        existing.filter (fun t => groupsIntersect t.groups groupPks)
      else existing
    match existing.head? with
    | some ex =>
      ({ db with triggers := db.triggers.map (fun x =>
          if x.pk == ex.pk then { ex with is_archived := false, flow := some flow.pk }
          else x) }, none)
    | none =>
      let t : Trigger :=
        { pk := db.nextPk, org := org, keyword := spec.keyword,
          flow := some flow.pk, last_triggered := none, trigger_count := 0,
          is_archived := false, groups := groupPks, contacts := [],
          trigger_type := spec.trigger_type, channel := spec.channel,
          is_active := true, modified_on := 0 }
      ({ db with triggers := db.triggers ++ [t], nextPk := db.nextPk + 1 }, none)

/-- The entry loop of `import_triggers`; an error propagates the state reached
so far (a raise does not roll back earlier entries). -/
def import_loop (db : DB) (specs : List TriggerSpec) (org : Nat)
    (site docSite : Option String) : DB × Option ImportError :=
  match specs with
  | [] => (db, none)
  | s :: rest =>
    match import_one db org site docSite s with
    | (db', none) => import_loop db' rest org site docSite
    | (db', some e) => (db', some e)

/-- `Trigger.import_triggers(exported_json, org, user, site)` (source lines
88-148).  `EARLIEST_IMPORT_VERSION` lives in `temba/orgs/models.py`, outside
`src/`; it is passed in as the `earliest` parameter.  The version guard runs
before any entry is processed. -/
def import_triggers (db : DB) (doc : ExportDoc) (org : Nat)
    (site : Option String) (earliest : Nat) : DB × Option ImportError :=
  if doc.version < earliest then (db, some .unsupportedVersion)
  else
    match doc.triggers with
    | some specs => import_loop db specs org site doc.site
    | none => (db, none)

/-! ## Concrete stores used by witnesses and counterexamples -/

/-- A live flow in org 1 (fixture for the C9 witness). -/
def c9flow : Flow :=
  { pk := 10, org := 1, name := "f", is_active := true, is_archived := false,
    ignore_triggers := false }

/-- An active missed-call trigger with no groups and no contacts (fixture for
the C9 witness). -/
def c9trig : Trigger :=
  { pk := 1, org := 1, keyword := none, flow := some 10, last_triggered := none,
    trigger_count := 0, is_archived := false, groups := [], contacts := [],
    trigger_type := 'M', channel := none, is_active := true, modified_on := 0 }

/-- A store for org 1 with no channels (fixture for the C9 witness). -/
def c9dbNoChannels : DB :=
  { triggers := [c9trig], flows := [c9flow], groups := [], runs := [],
    channels := [], nextPk := 20 }

/-- A store for org 1 with one channel (fixture for the C9 witness). -/
def c9dbChannel : DB :=
  { triggers := [c9trig], flows := [c9flow], groups := [], runs := [],
    channels := [{ pk := 3, org := 1 }], nextPk := 20 }

/-- A live flow in org 1 (fixture for the C6 witness). -/
def c6flow : Flow :=
  { pk := 10, org := 1, name := "f", is_active := true, is_archived := false,
    ignore_triggers := false }

/-- An active keyword trigger on "join" (fixture for the C6 witness). -/
def c6trig : Trigger :=
  { pk := 1, org := 1, keyword := some "join", flow := some 10, last_triggered := none,
    trigger_count := 0, is_archived := false, groups := [], contacts := [7],
    trigger_type := 'K', channel := none, is_active := true, modified_on := 0 }

/-- A contact in org 1 (fixture for the C6 witness). -/
def c6contact : Contact := { pk := 7, org := 1, groups := [] }

/-- A store with one keyword trigger (fixture for the C6 witness). -/
def c6db : DB :=
  { triggers := [c6trig], flows := [c6flow], groups := [], runs := [],
    channels := [{ pk := 3, org := 1 }], nextPk := 20 }

/-- A matching inbound message (fixture for the C6 witness). -/
def c6msg : Msg :=
  { pk := 5, org := 1, contact := c6contact, text := "Join us", created_on := 42 }

/-- A live flow (fixture for the C3 witness). -/
def c3flow : Flow :=
  { pk := 10, org := 1, name := "f", is_active := true, is_archived := false,
    ignore_triggers := false }

/-- The no-group fallback trigger on "join", stored first (fixture for the C3
witness). -/
def c3trigB : Trigger :=
  { pk := 2, org := 1, keyword := some "join", flow := some 10, last_triggered := none,
    trigger_count := 0, is_archived := false, groups := [], contacts := [],
    trigger_type := 'K', channel := none, is_active := true, modified_on := 0 }

/-- The group-specific trigger on "join" targeting group 101 (fixture for the
C3 witness). -/
def c3trigA : Trigger :=
  { pk := 1, org := 1, keyword := some "join", flow := some 10, last_triggered := none,
    trigger_count := 0, is_archived := false, groups := [101], contacts := [],
    trigger_type := 'K', channel := none, is_active := true, modified_on := 0 }

/-- A store holding the fallback before the group trigger (fixture for the C3
witness). -/
def c3db : DB :=
  { triggers := [c3trigB, c3trigA], flows := [c3flow],
    groups := [{ pk := 101, org := 1, name := "g", is_active := true }], runs := [],
    channels := [], nextPk := 20 }

/-- A message from a contact in group 101 (fixture for the C3 witness). -/
def c3msg : Msg :=
  { pk := 5, org := 1, contact := { pk := 7, org := 1, groups := [101] },
    text := "join", created_on := 42 }

/-- Flow run fixtures for C4: the newer active run's flow does not ignore
triggers; an older active, incomplete run's flow does. -/
def c4db : DB :=
  { triggers := [{ pk := 1, org := 1, keyword := some "join", flow := some 10,
                   last_triggered := none, trigger_count := 0, is_archived := false,
                   groups := [], contacts := [], trigger_type := 'K', channel := none,
                   is_active := true, modified_on := 0 }],
    flows := [{ pk := 10, org := 1, name := "f", is_active := true, is_archived := false,
                ignore_triggers := false },
              { pk := 11, org := 1, name := "g", is_active := true, is_archived := false,
                ignore_triggers := false },
              { pk := 12, org := 1, name := "h", is_active := true, is_archived := false,
                ignore_triggers := true }],
    groups := [], runs := [{ pk := 1, contact := 7, flow := 11, is_active := true,
                             created_on := 10, completed := false },
                           { pk := 2, contact := 7, flow := 12, is_active := true,
                             created_on := 5, completed := false }],
    channels := [], nextPk := 20 }

/-- A message whose keyword matches the C4 trigger. -/
def c4msg : Msg :=
  { pk := 5, org := 1, contact := { pk := 7, org := 1, groups := [] },
    text := "join", created_on := 42 }

/-- A store whose only active run ignores triggers (fixture for the C4
witness). -/
def c4wdb : DB :=
  { triggers := [{ pk := 1, org := 1, keyword := some "join", flow := some 10,
                   last_triggered := none, trigger_count := 0, is_archived := false,
                   groups := [], contacts := [], trigger_type := 'K', channel := none,
                   is_active := true, modified_on := 0 }],
    flows := [{ pk := 10, org := 1, name := "f", is_active := true, is_archived := false,
                ignore_triggers := false },
              { pk := 12, org := 1, name := "h", is_active := true, is_archived := false,
                ignore_triggers := true }],
    groups := [], runs := [{ pk := 2, contact := 7, flow := 12, is_active := true,
                             created_on := 5, completed := false }],
    channels := [], nextPk := 20 }

/-- The ignoring run of `c4wdb` (fixture for the C4 witness). -/
def c4run : FlowRun :=
  { pk := 2, contact := 7, flow := 12, is_active := true, created_on := 5,
    completed := false }

/-- The ignoring flow of `c4wdb` (fixture for the C4 witness). -/
def c4flow : Flow :=
  { pk := 12, org := 1, name := "h", is_active := true, is_archived := false,
    ignore_triggers := true }

/-- An active keyword trigger on "join" (fixture for C5). -/
def c5trig : Trigger :=
  { pk := 1, org := 1, keyword := some "join", flow := some 10, last_triggered := none,
    trigger_count := 0, is_archived := false, groups := [], contacts := [],
    trigger_type := 'K', channel := none, is_active := true, modified_on := 0 }

/-- A store with one matching trigger (fixture for C5). -/
def c5db : DB :=
  { triggers := [c5trig],
    flows := [{ pk := 10, org := 1, name := "f", is_active := true, is_archived := false,
                ignore_triggers := false }],
    groups := [], runs := [], channels := [], nextPk := 20 }

/-- A matching message created at time 5, dispatched at time 100 (fixture for
C5). -/
def c5msg : Msg :=
  { pk := 5, org := 1, contact := { pk := 7, org := 1, groups := [] },
    text := "join", created_on := 5 }

/-- A second matching message created at time 6 (fixture for the C5 witness). -/
def c5msg2 : Msg :=
  { pk := 6, org := 1, contact := { pk := 7, org := 1, groups := [] },
    text := "JOIN now", created_on := 6 }

/-- Two active inbound-call triggers in org 1 (fixture for C7). -/
def c7db : DB :=
  { triggers := [{ pk := 1, org := 1, keyword := none, flow := some 10,
                   last_triggered := none, trigger_count := 0, is_archived := false,
                   groups := [], contacts := [], trigger_type := 'V', channel := none,
                   is_active := true, modified_on := 0 },
                 { pk := 2, org := 1, keyword := none, flow := some 11,
                   last_triggered := none, trigger_count := 0, is_archived := false,
                   groups := [], contacts := [], trigger_type := 'V', channel := none,
                   is_active := true, modified_on := 0 }],
    flows := [{ pk := 10, org := 1, name := "f", is_active := true, is_archived := false,
                ignore_triggers := false },
              { pk := 11, org := 1, name := "g", is_active := true, is_archived := false,
                ignore_triggers := false }],
    groups := [], runs := [], channels := [], nextPk := 20 }

/-- A contact of org 1 with no groups (fixture for C7). -/
def c7contact : Contact := { pk := 7, org := 1, groups := [] }

/-- An already-active Keyword trigger on "join" (fixture for the C1 witness). -/
def c1other : Trigger :=
  { pk := 1, org := 1, keyword := some "join", flow := some 10, last_triggered := none,
    trigger_count := 0, is_archived := false, groups := [], contacts := [],
    trigger_type := 'K', channel := none, is_active := true, modified_on := 0 }

/-- The archived Keyword trigger on "join" being restored (fixture for the C1
witness). -/
def c1trig : Trigger :=
  { pk := 2, org := 1, keyword := some "join", flow := some 10, last_triggered := none,
    trigger_count := 0, is_archived := true, groups := [], contacts := [],
    trigger_type := 'K', channel := none, is_active := true, modified_on := 0 }

/-- A store with two same-keyword Keyword triggers (fixture for the C1
witness). -/
def c1db : DB :=
  { triggers := [c1other, c1trig], flows := [], groups := [], runs := [],
    channels := [], nextPk := 20 }

/-- The archived missed-call trigger with the later `last_triggered` (fixture
for the C2 witness). -/
def c2trigA : Trigger :=
  { pk := 1, org := 1, keyword := none, flow := some 10, last_triggered := some 50,
    trigger_count := 3, is_archived := true, groups := [], contacts := [],
    trigger_type := 'M', channel := none, is_active := true, modified_on := 0 }

/-- The archived missed-call trigger with the earlier `last_triggered`
(fixture for the C2 witness). -/
def c2trigB : Trigger :=
  { pk := 2, org := 1, keyword := none, flow := some 10, last_triggered := some 10,
    trigger_count := 1, is_archived := true, groups := [], contacts := [],
    trigger_type := 'M', channel := none, is_active := true, modified_on := 0 }

/-- A store with the two archived missed-call triggers (fixture for the C2
witness). -/
def c2db : DB :=
  { triggers := [c2trigA, c2trigB], flows := [], groups := [], runs := [],
    channels := [], nextPk := 20 }

/-- The active Keyword trigger whose keyword differs only in case (fixture
for the C10 witness). -/
def c10u : Trigger :=
  { pk := 1, org := 1, keyword := some "Join", flow := some 10, last_triggered := none,
    trigger_count := 0, is_archived := false, groups := [], contacts := [],
    trigger_type := 'K', channel := none, is_active := true, modified_on := 0 }

/-- The archived Keyword trigger being restored (fixture for the C10
witness). -/
def c10t : Trigger :=
  { pk := 2, org := 1, keyword := some "join", flow := some 10, last_triggered := none,
    trigger_count := 0, is_archived := true, groups := [], contacts := [],
    trigger_type := 'K', channel := none, is_active := true, modified_on := 0 }

/-- A store with "Join" active and "join" archived (fixture for the C10
witness). -/
def c10db : DB :=
  { triggers := [c10u, c10t], flows := [], groups := [], runs := [],
    channels := [], nextPk := 20 }

/-! ## Helper lemmas -/

/-- The pk column of a trigger store. -/
def pkList (l : List Trigger) : List Nat := l.map (fun t => t.pk)

theorem selectFirstBy_aux {α : Type} (better : α → α → Bool) :
    ∀ (l : List α) (a : α) (x : α),
      l.foldl (fun best y =>
        match best with
        | none => some y
        | some b => if better y b then some y else some b) (some a) = some x →
      x = a ∨ x ∈ l := by
  intro l
  induction l with
  | nil => intro a x h; simp at h; exact Or.inl h.symm
  | cons y ys ih =>
    intro a x h
    simp only [List.foldl_cons] at h
    by_cases hb : better y a
    · simp only [hb, if_true] at h
      rcases ih y x h with h1 | h2
      · exact Or.inr (h1 ▸ List.mem_cons_self y ys)
      · exact Or.inr (List.mem_cons_of_mem y h2)
    · simp only [hb, if_false] at h
      rcases ih a x h with h1 | h2
      · exact Or.inl h1
      · exact Or.inr (List.mem_cons_of_mem y h2)

theorem selectFirstBy_mem {α : Type} {better : α → α → Bool} {l : List α} {x : α}
    (h : selectFirstBy better l = some x) : x ∈ l := by
  cases l with
  | nil => simp [selectFirstBy] at h
  | cons y ys =>
    simp only [selectFirstBy, List.foldl_cons] at h
    rcases selectFirstBy_aux better ys y x h with h1 | h2
    · exact h1 ▸ List.mem_cons_self y ys
    · exact List.mem_cons_of_mem y h2

theorem selectFirstBy_eq_none {α : Type} {better : α → α → Bool} {l : List α}
    (h : selectFirstBy better l = none) : l = [] := by
  cases l with
  | nil => rfl
  | cons y ys =>
    exfalso
    simp only [selectFirstBy, List.foldl_cons] at h
    have : ∀ (m : List α) (a : α), m.foldl (fun best z =>
        match best with
        | none => some z
        | some b => if better z b then some z else some b) (some a) ≠ none := by
      intro m
      induction m with
      | nil => intro a hc; simp at hc
      | cons z zs ih =>
        intro a hc
        simp only [List.foldl_cons] at hc
        by_cases hb : better z a
        · simp only [hb, if_true] at hc; exact ih z hc
        · simp only [hb, if_false] at hc; exact ih a hc
    exact this ys y h

theorem getRow_map_pkpres {l : List Trigger} {f : Trigger → Trigger}
    (hf : ∀ x, (f x).pk = x.pk) (p : Nat) :
    getRow (l.map f) p = (getRow l p).map f := by
  have hcomp : ((fun t : Trigger => t.pk == p) ∘ f) = (fun t : Trigger => t.pk == p) := by
    funext x
    simp [Function.comp, hf x]
  simp only [getRow, List.find?_map, hcomp]

theorem getRow_mem_nodup {l : List Trigger} {x : Trigger}
    (hN : (pkList l).Nodup) (hx : x ∈ l) : getRow l x.pk = some x := by
  induction l with
  | nil => simp at hx
  | cons y ys ih =>
    rcases List.mem_cons.mp hx with h1 | h2
    · subst h1; simp [getRow, List.find?]
    · simp only [pkList, List.map_cons, List.nodup_cons] at hN
      have hne : y.pk ≠ x.pk := by
        intro he
        exact hN.1 (he ▸ List.mem_map_of_mem (fun t => t.pk) h2)
      simp only [getRow, List.find?]
      have : (y.pk == x.pk) = false := by
        simp [hne]
      rw [this]
      exact ih hN.2 h2

theorem getRow_mem {l : List Trigger} {p : Nat} {x : Trigger}
    (h : getRow l p = some x) : x ∈ l ∧ x.pk = p := by
  have hm := List.mem_of_find?_eq_some h
  have hp := List.find?_some h
  exact ⟨hm, by simpa using hp⟩

theorem countP_map_le {l : List Trigger} {p : Trigger → Bool} {f : Trigger → Trigger}
    (h : ∀ a ∈ l, p (f a) = true → p a = true) :
    (l.map f).countP p ≤ l.countP p := by
  rw [List.countP_map]
  exact List.countP_mono_left h

theorem count_pk_le_one {l : List Trigger} (hN : (pkList l).Nodup) (q : Nat) :
    l.countP (fun x => x.pk == q) ≤ 1 := by
  have h1 : l.countP (fun x => x.pk == q) = (pkList l).count q := by
    simp only [pkList, List.count, List.countP_map]
    rfl
  rw [h1]
  exact (List.nodup_iff_count_le_one).mp hN q

theorem pkList_map {l : List Trigger} {f : Trigger → Trigger}
    (hf : ∀ x, (f x).pk = x.pk) : pkList (l.map f) = pkList l := by
  simp only [pkList, List.map_map]
  exact List.map_congr_left (fun x _ => hf x)

theorem head?_mem {α : Type} {l : List α} {x : α} (h : l.head? = some x) : x ∈ l := by
  cases l with
  | nil => simp at h
  | cons y ys =>
    simp only [List.head?] at h
    cases h
    exact List.mem_cons_self _ _

theorem fah_selected_mem {db : DB} {msg : Msg} {t : Trigger}
    (h : fah_selected db msg = some t) : t ∈ db.triggers := by
  unfold fah_selected at h
  cases hk : find_keyword msg.text with
  | none => rw [hk] at h; simp at h
  | some kw =>
    rw [hk] at h
    by_cases hs : fah_suppressed db msg.contact
    · simp [hs] at h
    · simp only [hs, if_false] at h
      unfold fah_selected_match at h
      cases ha : selectFirstBy (better_groupname db msg.contact.groups) (fah_matchingA db msg kw) with
      | some a =>
        rw [ha] at h
        cases h
        exact List.mem_of_mem_filter (selectFirstBy_mem ha)
      | none =>
        rw [ha] at h
        exact List.mem_of_mem_filter (head?_mem h)

theorem ficall_selected_mem {db : DB} {c : Contact} {t : Trigger}
    (h : ficall_selected db c = some t) : t ∈ db.triggers := by
  unfold ficall_selected at h
  cases ha : selectFirstBy (better_groupname db c.groups) (ficall_matchingA db c) with
  | some a =>
    rw [ha] at h
    cases h
    exact List.mem_of_mem_filter (selectFirstBy_mem ha)
  | none =>
    rw [ha] at h
    exact List.mem_of_mem_filter (head?_mem h)

/-- "Updated together as a pair": a row is either untouched, or has
`last_triggered` set and `trigger_count` incremented by exactly one in the
same step. -/
def pairStamped (old new : Trigger) : Prop :=
  new = old ∨ ∃ τ, new = stampTrigger old τ

/-- Pointwise `pairStamped` between a store before and after an operation. -/
def pairStampedList (l new : List Trigger) : Prop :=
  List.Forall₂ pairStamped l new

theorem pairStampedList_refl (l : List Trigger) : pairStampedList l l := by
  rw [pairStampedList, List.forall₂_same]
  intro x _
  exact Or.inl rfl

theorem forall2_stamp {l : List Trigger} {t : Trigger} (τ : Nat)
    (ht : t ∈ l) (hN : (pkList l).Nodup) :
    pairStampedList l (l.map fun x => if x.pk == t.pk then stampTrigger t τ else x) := by
  simp only [pkList] at hN
  rw [pairStampedList, List.forall₂_map_right_iff, List.forall₂_same]
  intro x hx
  by_cases h : x.pk == t.pk
  · have hx_eq : x = t :=
      List.inj_on_of_nodup_map hN hx ht (by simpa using h)
    subst hx_eq
    simp only [h, if_true]
    exact Or.inr ⟨τ, rfl⟩
  · simp only [h, if_false]
    exact Or.inl rfl

/-! ## C8: unsupported import version -/

/-- C8: an import document whose version is below the minimum supported
version makes `import_triggers` fail with `UnsupportedVersionError` before
processing any entry: the store is returned unchanged (no trigger is created
or modified). -/
theorem C8_import_version_guard (db : DB) (doc : ExportDoc) (org : Nat)
    (site : Option String) (earliest : Nat) (h : doc.version < earliest) :
    import_triggers db doc org site earliest = (db, some .unsupportedVersion) := by
  simp [import_triggers, h]

/-- Witness for C8 at a concrete input: a version-1 document carrying a
trigger entry, imported with minimum version 3, errors out and leaves the
store untouched. -/
theorem C8_import_version_guard_witness :
    (({ version := 1, site := none,
        triggers := some [{ trigger_type := 'K', keyword := some "join",
                            flow := { id := 10, name := "f" }, groups := [],
                            channel := none }] } : ExportDoc).version < 3) ∧
    import_triggers
      { triggers := [], flows := [], groups := [], runs := [], channels := [], nextPk := 1 }
      { version := 1, site := none,
        triggers := some [{ trigger_type := 'K', keyword := some "join",
                            flow := { id := 10, name := "f" }, groups := [],
                            channel := none }] }
      1 none 3 =
      ({ triggers := [], flows := [], groups := [], runs := [], channels := [], nextPk := 1 },
       some .unsupportedVersion) :=
  ⟨by decide,
   C8_import_version_guard
     { triggers := [], flows := [], groups := [], runs := [], channels := [], nextPk := 1 }
     { version := 1, site := none,
       triggers := some [{ trigger_type := 'K', keyword := some "join",
                           flow := { id := 10, name := "f" }, groups := [],
                           channel := none }] }
     1 none 3 (by decide)⟩

/-! ## C9: manual fire no-op outcomes -/

/-- C9: a manual `Trigger.fire()` on an archived or inactive trigger, on a
trigger whose organization has no channels, or on a trigger with neither
groups nor contacts, performs no action — the store (hence `trigger_count`
and `last_triggered`) is unchanged and no workflow is started — and returns a
distinguishable Python `None` / `False` "did not fire" value instead of
raising. -/
theorem C9_fire_noop (db : DB) (t : Trigger) (now fp : Nat) (f : Flow)
    (hfp : t.flow = some fp) (hf : findFlow db fp = some f) (horg : f.org = t.org) :
    (t.is_archived = true ∨ t.is_active = false →
      fire db t now = some (db, .pyNone, [])) ∧
    (t.is_archived = false → t.is_active = true → org_channels db t.org = [] →
      fire db t now = some (db, .pyNone, [])) ∧
    (t.is_archived = false → t.is_active = true → t.groups = [] → t.contacts = [] →
      org_channels db t.org ≠ [] → fire db t now = some (db, .pyFalse, [])) := by
  refine ⟨?_, ?_, ?_⟩
  · intro h
    rcases h with h | h <;> simp [fire, h]
  · intro h1 h2 h3
    have hc : (org_channels db f.org).isEmpty = true := by
      rw [horg, h3]
      rfl
    simp [fire, h1, h2, hfp, hf, hc]
  · intro h1 h2 h3 h4 h5
    have hc : (org_channels db f.org).isEmpty = false := by
      rw [horg]
      simpa using h5
    simp [fire, h1, h2, hfp, hf, hc, h3, h4]

/-- Witness for C9 at concrete inputs: an org without channels (second case)
and a channel-bearing org with an empty-groups, empty-contacts trigger (third
case) both produce "did not fire" results with the store unchanged. -/
theorem C9_fire_noop_witness :
    fire c9dbNoChannels c9trig 7 = some (c9dbNoChannels, .pyNone, []) ∧
    fire c9dbChannel c9trig 7 = some (c9dbChannel, .pyFalse, []) :=
  ⟨(C9_fire_noop c9dbNoChannels c9trig 7 10 c9flow rfl rfl rfl).2.1 rfl rfl rfl,
   (C9_fire_noop c9dbChannel c9trig 7 10 c9flow rfl rfl rfl).2.2 rfl rfl rfl rfl
     (by decide)⟩

/-! ## C6: firing statistics updated together -/

/-- C6: on every dispatch path — keyword dispatch (`find_and_handle`),
call/catch-all dispatch (`catch_triggers`), inbound-call resolution
(`find_flow_for_inbound_call`), manual fire (`fire`) — every trigger row is
either untouched or has `trigger_count` incremented by exactly one together
with `last_triggered` being set in the same step: whenever one of the pair is
updated the other is too, and no row is incremented more than once per
inbound event. -/
theorem C6_stats_pair (db : DB) (hN : (pkList db.triggers).Nodup)
    (msg : Msg) (now : Nat) (e : Entity) (tt : Char) (ch : Option Nat)
    (c : Contact) (t : Trigger) (ht : t ∈ db.triggers) :
    pairStampedList db.triggers (find_and_handle db msg now).1.triggers ∧
    (catch_triggers db e tt ch).1.triggers = db.triggers ∧
    pairStampedList db.triggers (find_flow_for_inbound_call db c now).1.triggers ∧
    (∀ r, fire db t now = some r → pairStampedList db.triggers r.1.triggers) := by
  refine ⟨?_, rfl, ?_, ?_⟩
  · cases h : fah_selected db msg with
    | none => simp only [find_and_handle, h]; exact pairStampedList_refl _
    | some s =>
      simp only [find_and_handle, h]
      exact forall2_stamp msg.created_on (fah_selected_mem h) hN
  · cases h : ficall_selected db c with
    | none => simp only [find_flow_for_inbound_call, h]; exact pairStampedList_refl _
    | some s =>
      simp only [find_flow_for_inbound_call, h]
      exact forall2_stamp now (ficall_selected_mem h) hN
  · intro r hr
    by_cases h1 : (t.is_archived || !t.is_active) = true
    · have he : fire db t now = some (db, .pyNone, []) := by
        simp [fire, h1]
      rw [he] at hr
      cases hr
      exact pairStampedList_refl _
    · cases hfp : t.flow with
      | none =>
        have he : fire db t now = none := by
          simp [fire, h1, hfp]
        rw [he] at hr
        simp at hr
      | some fp =>
        cases hf : findFlow db fp with
        | none =>
          have he : fire db t now = none := by
            simp [fire, h1, hfp, hf]
          rw [he] at hr
          simp at hr
        | some f =>
          by_cases hc : (org_channels db f.org).isEmpty = true
          · have he : fire db t now = some (db, .pyNone, []) := by
              simp [fire, h1, hfp, hf, hc]
            rw [he] at hr
            cases hr
            exact pairStampedList_refl _
          · by_cases hg : (!t.groups.isEmpty || !t.contacts.isEmpty) = true
            · have he : fire db t now =
                  some ({ db with triggers := db.triggers.map (fun x =>
                    if x.pk == t.pk then stampTrigger t now else x) }, .started,
                    [{ flow := some fp, groups := t.groups, contacts := t.contacts,
                       start_msg := none, restart_participants := true }]) := by
                simp [fire, h1, hfp, hf, hc, hg]
              rw [he] at hr
              cases hr
              exact forall2_stamp now ht hN
            · have he : fire db t now = some (db, .pyFalse, []) := by
                simp [fire, h1, hfp, hf, hc, hg]
              rw [he] at hr
              cases hr
              exact pairStampedList_refl _

/-- Witness for C6 at a concrete store, message, call entity, contact and
trigger. -/
theorem C6_stats_pair_witness :
    pairStampedList c6db.triggers (find_and_handle c6db c6msg 99).1.triggers ∧
    (catch_triggers c6db (.contactE c6contact) 'M' none).1.triggers = c6db.triggers ∧
    pairStampedList c6db.triggers (find_flow_for_inbound_call c6db c6contact 99).1.triggers ∧
    (∀ r, fire c6db c6trig 99 = some r → pairStampedList c6db.triggers r.1.triggers) :=
  C6_stats_pair c6db (by decide) c6msg 99 (.contactE c6contact) 'M' none
    c6contact c6trig (by decide)

/-! ## C3: group-specific triggers beat the no-group fallback -/

/-- C3: in keyword dispatch, whenever a phase-A (group-intersecting) candidate
exists, the fired trigger is a phase-A candidate — its group set intersects
the contact's groups — and it is fired (result true, exactly its flow-start
performed); the empty-groups fallback is consulted only when no phase-A
candidate exists, and then the selected trigger has an empty group set. -/
theorem C3_group_specificity (db : DB) (msg : Msg) (now : Nat) (kw : String)
    (hk : find_keyword msg.text = some kw)
    (hs : fah_suppressed db msg.contact = false) :
    (fah_matchingA db msg kw ≠ [] →
      ∃ t, fah_selected db msg = some t ∧ t ∈ fah_matchingA db msg kw ∧
        groupsIntersect t.groups msg.contact.groups = true ∧
        (find_and_handle db msg now).2.1 = true ∧
        (find_and_handle db msg now).2.2 =
          [{ flow := t.flow, groups := [], contacts := [msg.contact.pk],
             start_msg := some msg.pk, restart_participants := true }]) ∧
    (fah_matchingA db msg kw = [] → ∀ t, fah_selected db msg = some t →
      t ∈ fah_matchingB db msg kw ∧ t.groups = []) := by
  constructor
  · intro hne
    cases ha : selectFirstBy (better_groupname db msg.contact.groups) (fah_matchingA db msg kw) with
    | none => exact absurd (selectFirstBy_eq_none ha) hne
    | some a =>
      have hmem : a ∈ fah_matchingA db msg kw := selectFirstBy_mem ha
      have hsel : fah_selected db msg = some a := by
        unfold fah_selected fah_selected_match
        rw [hk]
        simp [hs, ha]
      have hgi : groupsIntersect a.groups msg.contact.groups = true := by
        have := (List.mem_filter.mp hmem).2
        simp only [Bool.and_eq_true] at this
        exact this.2
      refine ⟨a, hsel, hmem, hgi, ?_, ?_⟩
      · simp [find_and_handle, hsel]
      · simp [find_and_handle, hsel]
  · intro hA t hsel
    unfold fah_selected fah_selected_match at hsel
    rw [hk] at hsel
    simp only [hs, if_false, hA] at hsel
    have hmem : t ∈ fah_matchingB db msg kw := by
      cases hb : (fah_matchingB db msg kw).head? with
      | none => rw [hb] at hsel; simp [selectFirstBy] at hsel
      | some b =>
        rw [hb] at hsel
        simp only [selectFirstBy, List.foldl_nil] at hsel
        cases hsel
        exact head?_mem hb
    refine ⟨hmem, ?_⟩
    have := (List.mem_filter.mp hmem).2
    simp only [Bool.and_eq_true] at this
    exact List.isEmpty_iff.mp this.2

/-- Witness for C3: the store lists the fallback trigger first, yet dispatch
selects the group-specific trigger for a contact in its group. -/
theorem C3_group_specificity_witness :
    fah_matchingA c3db c3msg "join" ≠ [] ∧
    (∃ t, fah_selected c3db c3msg = some t ∧ t ∈ fah_matchingA c3db c3msg "join" ∧
      groupsIntersect t.groups c3msg.contact.groups = true ∧
      (find_and_handle c3db c3msg 0).2.1 = true ∧
      (find_and_handle c3db c3msg 0).2.2 =
        [{ flow := t.flow, groups := [], contacts := [c3msg.contact.pk],
           start_msg := some c3msg.pk, restart_participants := true }]) :=
  ⟨by decide,
   (C3_group_specificity c3db c3msg 0 "join" (by decide) (by decide)).1 (by decide)⟩

/-! ## C4: ignore-triggers suppression (corrected) -/

/-- Counterexample to C4 as stated: the contact of `c4msg` has an active,
not-completed run (`pk 2`) whose live flow sets `ignore_triggers`, yet
dispatch fires a trigger and returns true, because the code consults only the
single most recent active run (`pk 1`, whose flow does not ignore triggers),
not every active run. -/
theorem C4_counterexample :
    (c4db.runs.any (fun r => r.is_active && r.contact == c4msg.contact.pk &&
      !r.completed &&
      (match findFlow c4db r.flow with
       | some f => f.ignore_triggers && f.is_active && !f.is_archived
       | none => false))) = true ∧
    (find_and_handle c4db c4msg 0).2.1 = true ∧
    (find_and_handle c4db c4msg 0).2.2 ≠ [] := by
  refine ⟨by decide, by decide, by decide⟩

/-- C4 (amended): when the contact's most recent active run — the one with
the greatest `(created_on, pk)` among active runs on live flows — has the
ignore-triggers flag and is not completed, keyword dispatch returns false and
fires nothing, for every content of the trigger store (the run-state check is
independent of, and decided before, the trigger query). -/
theorem C4_ignore_triggers_suppression (db : DB) (msg : Msg) (now : Nat)
    (r : FlowRun) (f : Flow)
    (hr : fah_active_run db msg.contact = some r)
    (hf : findFlow db r.flow = some f)
    (hig : f.ignore_triggers = true)
    (hnc : r.completed = false) :
    ∀ ts : List Trigger,
      find_and_handle { db with triggers := ts } msg now =
        ({ db with triggers := ts }, false, []) := by
  intro ts
  have h1 : fah_active_run { db with triggers := ts } msg.contact = some r := hr
  have h2 : findFlow { db with triggers := ts } r.flow = some f := hf
  have hs : fah_suppressed { db with triggers := ts } msg.contact = true := by
    simp [fah_suppressed, h1, h2, hig, hnc]
  unfold find_and_handle fah_selected
  cases hk : find_keyword msg.text with
  | none => simp
  | some kw => simp [hs]

/-- Witness for amended C4: a store whose only active run ignores triggers
suppresses dispatch of an otherwise-matching keyword. -/
theorem C4_ignore_triggers_suppression_witness :
    find_and_handle { c4wdb with triggers := c4wdb.triggers } c4msg 0 =
      ({ c4wdb with triggers := c4wdb.triggers }, false, []) :=
  C4_ignore_triggers_suppression c4wdb c4msg 0 c4run c4flow (by decide) (by decide)
    (by decide) (by decide) c4wdb.triggers

/-! ## C5: dispatch stamps statistics (corrected) -/

/-- Counterexample to C5 as stated: dispatching at clock time 100 a message
created at time 5 fires the trigger but leaves `last_triggered = 5` — the
message's creation time — not the dispatch time 100 the claim requires
(`find_and_handle` never reads the clock; source line 217 stamps
`msg.created_on`). -/
theorem C5_counterexample :
    (find_and_handle c5db c5msg 100).2.1 = true ∧
    (getRow (find_and_handle c5db c5msg 100).1.triggers 1).map
      (fun t => t.last_triggered) = some (some 5) ∧
    (getRow (find_and_handle c5db c5msg 100).1.triggers 1).map
      (fun t => t.last_triggered) ≠ some (some 100) := by
  refine ⟨by decide, by decide, by decide⟩

/-- C5 (amended): on a keyword match, dispatch persists
`last_triggered = msg.created_on` (the triggering message's creation time,
not the dispatch clock) and `trigger_count + 1`, starts the matched flow for
the contact with the triggering message and `restart_participants = true`,
and returns true; dispatching the same trigger a second time yields
`trigger_count + 2` with `last_triggered` equal to the second message's
creation time. -/
theorem C5_dispatch_stamps (db : DB) (msg : Msg) (now : Nat) (t : Trigger)
    (hN : (pkList db.triggers).Nodup)
    (h : fah_selected db msg = some t) :
    find_and_handle db msg now =
      ({ db with triggers := db.triggers.map (fun x =>
          if x.pk == t.pk then stampTrigger t msg.created_on else x) }, true,
       [{ flow := t.flow, groups := [], contacts := [msg.contact.pk],
          start_msg := some msg.pk, restart_participants := true }]) ∧
    getRow (find_and_handle db msg now).1.triggers t.pk =
      some { t with last_triggered := some msg.created_on,
                    trigger_count := t.trigger_count + 1 } ∧
    (∀ msg2 now2 t2, fah_selected (find_and_handle db msg now).1 msg2 = some t2 →
      t2.pk = t.pk →
      getRow (find_and_handle (find_and_handle db msg now).1 msg2 now2).1.triggers t.pk =
        some { t with last_triggered := some msg2.created_on,
                      trigger_count := t.trigger_count + 2 }) := by
  have hmem : t ∈ db.triggers := fah_selected_mem h
  have hrow : getRow db.triggers t.pk = some t := getRow_mem_nodup hN hmem
  have hpk : ∀ x : Trigger,
      ((fun x => if x.pk == t.pk then stampTrigger t msg.created_on else x) x).pk = x.pk := by
    intro x
    by_cases hx : x.pk == t.pk
    · simp only [hx, if_true, stampTrigger]
      exact (beq_iff_eq.mp hx).symm
    · simp [hx]
  have h1 : find_and_handle db msg now =
      ({ db with triggers := db.triggers.map (fun x =>
          if x.pk == t.pk then stampTrigger t msg.created_on else x) }, true,
       [{ flow := t.flow, groups := [], contacts := [msg.contact.pk],
          start_msg := some msg.pk, restart_participants := true }]) := by
    simp [find_and_handle, h]
  have hrow1 : getRow (find_and_handle db msg now).1.triggers t.pk =
      some (stampTrigger t msg.created_on) := by
    rw [h1]
    show getRow (db.triggers.map _) t.pk = _
    rw [getRow_map_pkpres hpk, hrow]
    simp
  refine ⟨h1, ?_, ?_⟩
  · rw [hrow1]; rfl
  · intro msg2 now2 t2 h2 hpk2
    have hN1 : (pkList (find_and_handle db msg now).1.triggers).Nodup := by
      rw [h1]
      show (pkList (db.triggers.map _)).Nodup
      rw [pkList_map hpk]
      exact hN
    have hmem2 : t2 ∈ (find_and_handle db msg now).1.triggers := fah_selected_mem h2
    have hrow2 : getRow (find_and_handle db msg now).1.triggers t2.pk = some t2 :=
      getRow_mem_nodup hN1 hmem2
    have ht2 : t2 = stampTrigger t msg.created_on := by
      rw [hpk2] at hrow2
      rw [hrow1] at hrow2
      exact (Option.some.inj hrow2).symm
    have hpk' : ∀ x : Trigger,
        ((fun x => if x.pk == t2.pk then stampTrigger t2 msg2.created_on else x) x).pk = x.pk := by
      intro x
      by_cases hx : x.pk == t2.pk
      · simp only [hx, if_true, stampTrigger]
        exact (beq_iff_eq.mp hx).symm
      · simp [hx]
    have h3 : (find_and_handle (find_and_handle db msg now).1 msg2 now2).1.triggers =
        (find_and_handle db msg now).1.triggers.map (fun x =>
          if x.pk == t2.pk then stampTrigger t2 msg2.created_on else x) := by
      generalize hG : (find_and_handle db msg now).1 = db1 at h2 ⊢
      simp [find_and_handle, h2]
    rw [h3, getRow_map_pkpres hpk', hpk2, hrow1]
    have hb : ((stampTrigger t msg.created_on).pk == t.pk) = true := by
      simp [stampTrigger]
    simp only [Option.map_some']
    rw [if_pos hb, ht2]
    rfl

/-- Witness for amended C5 at a concrete store and two messages created at
times 5 and 6: the trigger ends with count 2 and `last_triggered = 6`. -/
theorem C5_dispatch_stamps_witness :
    getRow (find_and_handle (find_and_handle c5db c5msg 100).1 c5msg2 200).1.triggers
        c5trig.pk =
      some { c5trig with last_triggered := some c5msg2.created_on,
                         trigger_count := c5trig.trigger_count + 2 } :=
  (C5_dispatch_stamps c5db c5msg 100 c5trig (by decide) (by decide)).2.2 c5msg2 200
    (stampTrigger c5trig 5) (by decide) (by decide)

/-! ## C7: call-type dispatch (corrected) -/

/-- Counterexample to C7 as stated: with two active, non-archived inbound-call
triggers in the org, `find_flow_for_inbound_call` — the inbound-call dispatch
path the claim covers — starts no workflow at all (it returns the selected
trigger's flow to the caller), stamps the statistics of only one of the two,
and returns a flow rather than "whether any trigger fired"; so it is false
that on every call-type dispatch path every matching trigger of the type "has
its workflow started". -/
theorem C7_counterexample :
    (get_triggers_of_type c7db 1 'V').length = 2 ∧
    (find_flow_for_inbound_call c7db c7contact 50).2.2 = [] ∧
    (find_flow_for_inbound_call c7db c7contact 50).1.triggers.countP
      (fun t => t.trigger_count == 1) = 1 ∧
    (find_flow_for_inbound_call c7db c7contact 50).1.triggers.countP
      (fun t => t.trigger_count == 0) = 1 := by
  refine ⟨by decide, by decide, by decide, by decide⟩

/-- C7 (amended): `catch_triggers` — the path used for missed-call,
catch-all, follow and manual-enrollment dispatch — starts the workflow of
**every** active, non-archived trigger of the requested type in the entity's
org (restricted to the given channel when one is supplied) for the entity's
contact with `restart_participants = true`, and returns whether any trigger
matched; `find_flow_for_inbound_call`, by contrast, selects a single trigger
by group specificity, stamps only its statistics, returns its flow, and
starts no workflow itself. -/
theorem C7_call_dispatch (db : DB) (e : Entity) (tt : Char) (ch : Option Nat)
    (c : Contact) (now : Nat) :
    ((catch_triggers db e tt ch).2.2 = (catch_matched db e tt ch).map (fun t =>
      { flow := t.flow, groups := [], contacts := [e.contact.pk],
        start_msg := e.startMsg, restart_participants := true })) ∧
    (∀ t ∈ catch_matched db e tt ch,
      ({ flow := t.flow, groups := [], contacts := [e.contact.pk],
         start_msg := e.startMsg, restart_participants := true } : FlowStart) ∈
        (catch_triggers db e tt ch).2.2) ∧
    ((catch_triggers db e tt ch).2.1 = true ↔ catch_matched db e tt ch ≠ []) ∧
    ((find_flow_for_inbound_call db c now).2.2 = []) ∧
    (∀ t, ficall_selected db c = some t →
      (find_flow_for_inbound_call db c now).2.1 = t.flow) := by
  refine ⟨rfl, ?_, ?_, ?_, ?_⟩
  · intro t ht
    exact List.mem_map_of_mem _ ht
  · show (!(catch_matched db e tt ch).isEmpty) = true ↔ _
    cases hm : catch_matched db e tt ch <;> simp
  · cases hm : ficall_selected db c <;> simp [find_flow_for_inbound_call, hm]
  · intro t ht
    simp [find_flow_for_inbound_call, ht]

/-- Witness for amended C7: a concrete store with two inbound-call triggers
and a missed-call dispatch. -/
theorem C7_call_dispatch_witness :
    (∀ t ∈ catch_matched c7db (.contactE c7contact) 'V' none,
      ({ flow := t.flow, groups := [], contacts := [c7contact.pk],
         start_msg := none, restart_participants := true } : FlowStart) ∈
        (catch_triggers c7db (.contactE c7contact) 'V' none).2.2) ∧
    ((catch_triggers c7db (.contactE c7contact) 'V' none).2.1 = true ↔
      catch_matched c7db (.contactE c7contact) 'V' none ≠ []) ∧
    (find_flow_for_inbound_call c7db c7contact 50).2.1 = some 10 :=
  ⟨(C7_call_dispatch c7db (.contactE c7contact) 'V' none c7contact 50).2.1,
   (C7_call_dispatch c7db (.contactE c7contact) 'V' none c7contact 50).2.2.1,
   (C7_call_dispatch c7db (.contactE c7contact) 'V' none c7contact 50).2.2.2.2
     { pk := 1, org := 1, keyword := none, flow := some 10, last_triggered := none,
       trigger_count := 0, is_archived := false, groups := [], contacts := [],
       trigger_type := 'V', channel := none, is_active := true, modified_on := 0 }
     (by decide)⟩

/-! ## Restore infrastructure -/

/-- An active, non-archived Keyword trigger of org `o` with keyword exactly
`k` (the exclusivity predicate of C1). -/
def predK (o : Nat) (k : String) (x : Trigger) : Bool :=
  x.is_active && !x.is_archived && x.trigger_type == KEYWORD_TRIGGER &&
    x.keyword == some k && x.org == o

/-- An active, non-archived trigger of type `tt` in org `o` (the exclusivity
predicate of C2). -/
def predCat (tt : Char) (o : Nat) (x : Trigger) : Bool :=
  x.is_active && !x.is_archived && x.trigger_type == tt && x.org == o

/-- The keyword-displacement condition of one loop iteration, as a Prop. -/
def dispCond (t u : Trigger) : Prop :=
  (kwTruthy t.keyword && (u.org == t.org && u.keyword == t.keyword &&
    !u.is_archived && u.is_active && u.trigger_type == KEYWORD_TRIGGER)) = true

instance (t u : Trigger) : Decidable (dispCond t u) := by
  unfold dispCond
  infer_instance

theorem restore_step_row_cases (t u : Trigger) :
    restore_step_row t u = u ∨
    restore_step_row t u = { u with is_archived := true } ∨
    (u.pk = t.pk ∧ restore_step_row t u = { t with is_archived := false }) := by
  by_cases c1 : dispCond t u <;> by_cases c2 : (u.pk == t.pk) = true
  · exact Or.inr (Or.inr ⟨beq_iff_eq.mp c2, by
      unfold dispCond at c1
      simp [restore_step_row, c1, c2]⟩)
  · refine Or.inr (Or.inl ?_)
    unfold dispCond at c1
    simp [restore_step_row, c1, c2]
  · exact Or.inr (Or.inr ⟨beq_iff_eq.mp c2, by
      unfold dispCond at c1
      simp [restore_step_row, c1, c2]⟩)
  · refine Or.inl ?_
    unfold dispCond at c1
    simp [restore_step_row, c1, c2]

theorem restore_step_row_pk (t u : Trigger) : (restore_step_row t u).pk = u.pk := by
  rcases restore_step_row_cases t u with h | h | ⟨hpk, h⟩ <;> rw [h]
  exact hpk.symm

theorem restore_step_row_fix (t u : Trigger) (hpk : u.pk ≠ t.pk)
    (hc : ¬dispCond t u) : restore_step_row t u = u := by
  unfold dispCond at hc
  have hb : (u.pk == t.pk) = false := by simp [hpk]
  simp [restore_step_row, hc, hb]

theorem restore_step_row_save (t u : Trigger) (hpk : u.pk = t.pk) :
    restore_step_row t u = { t with is_archived := false } := by
  have hb : (u.pk == t.pk) = true := by simp [hpk]
  by_cases c1 : dispCond t u <;> unfold dispCond at c1 <;>
    simp [restore_step_row, c1, hb]

theorem restore_archive_row_cases (o : Nat) (tt : Char) (u : Trigger) :
    (restore_archive_row o tt u = u) ∨
    (restore_archive_row o tt u = { u with is_archived := true } ∧
      u.org = o ∧ u.trigger_type = tt ∧ u.is_active = true) := by
  by_cases c : (u.org == o && u.trigger_type == tt && u.is_active) = true
  · refine Or.inr ⟨by simp [restore_archive_row, c], ?_⟩
    simp only [Bool.and_eq_true, beq_iff_eq] at c
    exact ⟨c.1.1, c.1.2, c.2⟩
  · exact Or.inl (by simp [restore_archive_row, c])

theorem restore_archive_row_pk (o : Nat) (tt : Char) (u : Trigger) :
    (restore_archive_row o tt u).pk = u.pk := by
  rcases restore_archive_row_cases o tt u with h | ⟨h, _⟩ <;> rw [h]

theorem restore_archive_row_skip (o : Nat) (tt : Char) (u : Trigger)
    (h : u.trigger_type ≠ tt) : restore_archive_row o tt u = u := by
  have : (u.org == o && u.trigger_type == tt && u.is_active) = false := by
    simp [h]
  simp [restore_archive_row, this]

theorem restore_save_row_cases (t u : Trigger) :
    (u.pk ≠ t.pk ∧ restore_save_row t u = u) ∨
    (u.pk = t.pk ∧ restore_save_row t u = { t with is_archived := false }) := by
  by_cases c : (u.pk == t.pk) = true
  · exact Or.inr ⟨beq_iff_eq.mp c, by simp [restore_save_row, c]⟩
  · refine Or.inl ⟨?_, by simp [restore_save_row, c]⟩
    intro h
    exact c (by simp [h])

theorem restore_save_row_pk (t u : Trigger) : (restore_save_row t u).pk = u.pk := by
  rcases restore_save_row_cases t u with ⟨_, h⟩ | ⟨hpk, h⟩ <;> rw [h]
  exact hpk.symm

theorem restore_step_triggers (db : DB) (t : Trigger) :
    (restore_step db t).triggers = db.triggers.map (restore_step_row t) := rfl

theorem fold_triggers_eq_map : ∀ (l : List Trigger) (db : DB),
    ((l.foldl restore_step db).triggers) =
      db.triggers.map (fun x => l.foldl (fun y u => restore_step_row u y) x) := by
  intro l
  induction l with
  | nil => intro db; simp
  | cons t ts ih =>
    intro db
    simp only [List.foldl_cons]
    rw [ih (restore_step db t), restore_step_triggers, List.map_map]
    rfl

theorem pkList_fold (l : List Trigger) (db : DB) :
    pkList ((l.foldl restore_step db).triggers) = pkList db.triggers := by
  induction l generalizing db with
  | nil => rfl
  | cons t ts ih =>
    simp only [List.foldl_cons]
    rw [ih (restore_step db t), restore_step_triggers,
      pkList_map (restore_step_row_pk t)]

theorem pkList_archive (db : DB) (o : Nat) (tt : Char) :
    pkList (restore_archive_cat db o tt).triggers = pkList db.triggers :=
  pkList_map (restore_archive_row_pk o tt)

theorem pkList_save (db : DB) (t : Trigger) :
    pkList (restore_save_unarchived db t).triggers = pkList db.triggers :=
  pkList_map (restore_save_row_pk t)

theorem pkList_cat_branch (db : DB) (pks : List Nat) (tt : Char) :
    pkList (restore_cat_branch db pks tt).triggers = pkList db.triggers := by
  unfold restore_cat_branch
  cases selectFirstBy mcBetter (mcInput db pks tt) with
  | none => rfl
  | some chosen => rw [pkList_save, pkList_archive]

theorem pkList_restore_remaining (db : DB) (pks : List Nat) :
    pkList (restore_remaining db pks).triggers = pkList db.triggers :=
  pkList_fold _ db

theorem remaining_mem {db : DB} {pks : List Nat} {t : Trigger}
    (h : t ∈ restore_remaining_list db pks) :
    t ∈ db.triggers ∧ pks.contains t.pk = true ∧
    t.trigger_type ≠ MISSED_CALL_TRIGGER ∧ t.trigger_type ≠ CATCH_ALL_TRIGGER := by
  unfold restore_remaining_list at h
  have h1 := List.mem_filter.mp h
  have h2 := List.mem_filter.mp h1.1
  have hcond := h1.2
  simp only [Bool.and_eq_true, Bool.not_eq_true'] at hcond
  refine ⟨h2.1, h2.2, ?_, ?_⟩
  · intro hM
    have hmm : t.pk ∈ (mcInput db pks MISSED_CALL_TRIGGER).map (fun t => t.pk) :=
      List.mem_map_of_mem _ (List.mem_filter.mpr ⟨h1.1, by simp [hM]⟩)
    have := hcond.1
    simp [hmm] at this
  · intro hC
    have hmm : t.pk ∈ (mcInput db pks CATCH_ALL_TRIGGER).map (fun t => t.pk) :=
      List.mem_map_of_mem _ (List.mem_filter.mpr ⟨h1.1, by simp [hC]⟩)
    have := hcond.2
    simp [hmm] at this

/-- A trigger row that is in the input and of neither exclusive category is a
row of the `remaining_triggers` loop (pk uniqueness rules out a category row
sharing its pk). -/
theorem remaining_mem_rev {db : DB} {pks : List Nat} {t : Trigger}
    (hN : (pkList db.triggers).Nodup)
    (hmem : t ∈ db.triggers) (hin : pks.contains t.pk = true)
    (hM : t.trigger_type ≠ MISSED_CALL_TRIGGER)
    (hC : t.trigger_type ≠ CATCH_ALL_TRIGGER) :
    t ∈ restore_remaining_list db pks := by
  unfold restore_remaining_list
  have hinp : t ∈ inputTriggers db pks := List.mem_filter.mpr ⟨hmem, hin⟩
  refine List.mem_filter.mpr ⟨hinp, ?_⟩
  simp only [pkList] at hN
  have hMc : ∀ x ∈ mcInput db pks MISSED_CALL_TRIGGER, ¬x.pk = t.pk := by
    intro u hu hupk
    have humem : u ∈ db.triggers := List.mem_of_mem_filter (List.mem_of_mem_filter hu)
    have heq : u = t := List.inj_on_of_nodup_map hN humem hmem hupk
    subst heq
    exact hM (by simpa using (List.mem_filter.mp hu).2)
  have hCc : ∀ x ∈ mcInput db pks CATCH_ALL_TRIGGER, ¬x.pk = t.pk := by
    intro u hu hupk
    have humem : u ∈ db.triggers := List.mem_of_mem_filter (List.mem_of_mem_filter hu)
    have heq : u = t := List.inj_on_of_nodup_map hN humem hmem hupk
    subst heq
    exact hC (by simpa using (List.mem_filter.mp hu).2)
  simp
  exact ⟨hMc, hCc⟩

theorem predK_spec {o : Nat} {k : String} {x : Trigger} :
    predK o k x = true ↔
      (x.is_active = true ∧ x.is_archived = false ∧
       x.trigger_type = KEYWORD_TRIGGER ∧ x.keyword = some k ∧ x.org = o) := by
  simp [predK, and_assoc]

theorem predCat_spec {tt : Char} {o : Nat} {x : Trigger} :
    predCat tt o x = true ↔
      (x.is_active = true ∧ x.is_archived = false ∧
       x.trigger_type = tt ∧ x.org = o) := by
  simp [predCat, and_assoc]

theorem restore_archive_triggers (db : DB) (o : Nat) (tt : Char) :
    (restore_archive_cat db o tt).triggers = db.triggers.map (restore_archive_row o tt) := rfl

theorem restore_save_triggers (db : DB) (t : Trigger) :
    (restore_save_unarchived db t).triggers = db.triggers.map (restore_save_row t) := rfl

theorem step_predK_le (t : Trigger) (o : Nat) (k : String)
    (hk : ¬(t.keyword = some k ∧ t.org = o)) (l : List Trigger) :
    (l.map (restore_step_row t)).countP (predK o k) ≤ l.countP (predK o k) := by
  apply countP_map_le
  intro u _ hp
  rcases restore_step_row_cases t u with h | h | ⟨hpk, h⟩
  · rwa [h] at hp
  · rw [h, predK_spec] at hp
    simp at hp
  · rw [h, predK_spec] at hp
    exact absurd ⟨hp.2.2.2.1, hp.2.2.2.2⟩ hk

theorem step_predK_match (t : Trigger) (o : Nat) (k : String)
    (ht1 : t.keyword = some k) (ht2 : t.org = o) (hne : k ≠ "")
    (l : List Trigger) (hN : (pkList l).Nodup) :
    (l.map (restore_step_row t)).countP (predK o k) ≤ 1 := by
  rw [List.countP_map]
  have hle : l.countP (predK o k ∘ restore_step_row t) ≤
      l.countP (fun x => x.pk == t.pk) := by
    apply List.countP_mono_left
    intro u _ hp
    simp only [Function.comp] at hp
    by_cases hpk : u.pk = t.pk
    · simp [hpk]
    · exfalso
      have hrow : restore_step_row t u = u ∨
          restore_step_row t u = { u with is_archived := true } := by
        rcases restore_step_row_cases t u with h | h | ⟨hpk', h⟩
        · exact Or.inl h
        · exact Or.inr h
        · exact absurd hpk' hpk
      rcases hrow with h | h
      · rw [h, predK_spec] at hp
        obtain ⟨ha, hna, htt, hkw, ho⟩ := hp
        have hcond : dispCond t u := by
          unfold dispCond
          simp [kwTruthy, ht1, hne, ho, ht2, hkw, hna, ha, htt]
        have harch : restore_step_row t u = { u with is_archived := true } := by
          unfold dispCond at hcond
          have hb : (u.pk == t.pk) = false := by simp [hpk]
          simp [restore_step_row, hcond, hb]
        rw [h] at harch
        have := congrArg Trigger.is_archived harch
        rw [hna] at this
        simp at this
      · rw [h, predK_spec] at hp
        simp at hp
  exact le_trans hle (count_pk_le_one hN t.pk)

theorem fold_predK_le_one (o : Nat) (k : String) (hne : k ≠ "") :
    ∀ (l : List Trigger) (db : DB), (pkList db.triggers).Nodup →
    ((∃ t ∈ l, t.keyword = some k ∧ t.org = o) ∨
      db.triggers.countP (predK o k) ≤ 1) →
    ((l.foldl restore_step db).triggers).countP (predK o k) ≤ 1 := by
  intro l
  induction l with
  | nil =>
    intro db _ hd
    rcases hd with ⟨t, ht, _⟩ | h
    · simp at ht
    · simpa using h
  | cons t ts ih =>
    intro db hN hd
    simp only [List.foldl_cons]
    have hN' : (pkList (restore_step db t).triggers).Nodup := by
      rw [restore_step_triggers, pkList_map (restore_step_row_pk t)]
      exact hN
    by_cases hm : t.keyword = some k ∧ t.org = o
    · refine ih (restore_step db t) hN' (Or.inr ?_)
      rw [restore_step_triggers]
      exact step_predK_match t o k hm.1 hm.2 hne db.triggers hN
    · rcases hd with ⟨u, hu, hukw⟩ | hle
      · rcases List.mem_cons.mp hu with rfl | hu'
        · exact absurd hukw hm
        · exact ih _ hN' (Or.inl ⟨u, hu', hukw⟩)
      · refine ih _ hN' (Or.inr ?_)
        rw [restore_step_triggers]
        exact le_trans (step_predK_le t o k hm db.triggers) hle

theorem cat_branch_predK_le (db : DB) (pks : List Nat) (tt : Char) (o : Nat)
    (k : String) (htt : tt ≠ KEYWORD_TRIGGER) :
    (restore_cat_branch db pks tt).triggers.countP (predK o k) ≤
      db.triggers.countP (predK o k) := by
  unfold restore_cat_branch
  cases hc : selectFirstBy mcBetter (mcInput db pks tt) with
  | none => exact le_refl _
  | some chosen =>
    have hct : chosen.trigger_type = tt := by
      have := (List.mem_filter.mp (selectFirstBy_mem hc)).2
      simpa using this
    have hsave : (restore_save_unarchived (restore_archive_cat db chosen.org tt)
        chosen).triggers.countP (predK o k) ≤
        (restore_archive_cat db chosen.org tt).triggers.countP (predK o k) := by
      rw [restore_save_triggers]
      apply countP_map_le
      intro u _ hp
      rcases restore_save_row_cases chosen u with ⟨_, h⟩ | ⟨_, h⟩
      · rwa [h] at hp
      · rw [h, predK_spec] at hp
        have hk : chosen.trigger_type = KEYWORD_TRIGGER := hp.2.2.1
        rw [hct] at hk
        exact absurd hk htt
    have harch : (restore_archive_cat db chosen.org tt).triggers.countP (predK o k) ≤
        db.triggers.countP (predK o k) := by
      rw [restore_archive_triggers]
      apply countP_map_le
      intro u _ hp
      rcases restore_archive_row_cases chosen.org tt u with h | ⟨h, _⟩
      · rwa [h] at hp
      · rw [h, predK_spec] at hp
        simp at hp
    exact le_trans hsave harch

/-! ## C1: keyword exclusivity after restore -/

/-- C1: restoring a set that contains an active-flagged Keyword trigger with
non-empty keyword `k` leaves at most one active, non-archived Keyword trigger
with `(org, keyword) = (t.org, k)` in the store: the loop archives every
other currently-active, non-archived same-org, same-keyword Keyword trigger
before saving each candidate unarchived. -/
theorem C1_restore_keyword_exclusive (db : DB) (pks : List Nat) (t : Trigger)
    (k : String)
    (hN : (pkList db.triggers).Nodup)
    (hmem : t ∈ db.triggers) (hin : pks.contains t.pk = true)
    (htype : t.trigger_type = KEYWORD_TRIGGER)
    (hkw : t.keyword = some k) (hne : k ≠ "") :
    ((apply_action_restore db pks).1.triggers).countP (predK t.org k) ≤ 1 := by
  have hMne : t.trigger_type ≠ MISSED_CALL_TRIGGER := by
    rw [htype]; decide
  have hCne : t.trigger_type ≠ CATCH_ALL_TRIGGER := by
    rw [htype]; decide
  have hrem : t ∈ restore_remaining_list db pks :=
    remaining_mem_rev hN hmem hin hMne hCne
  have h1 : ((restore_remaining db pks).triggers).countP (predK t.org k) ≤ 1 :=
    fold_predK_le_one t.org k hne _ db hN (Or.inl ⟨t, hrem, hkw, rfl⟩)
  have h2 := cat_branch_predK_le (restore_remaining db pks) pks
    MISSED_CALL_TRIGGER t.org k (by decide)
  have h3 := cat_branch_predK_le
    (restore_cat_branch (restore_remaining db pks) pks MISSED_CALL_TRIGGER) pks
    CATCH_ALL_TRIGGER t.org k (by decide)
  exact le_trans h3 (le_trans h2 h1)

theorem restore_step_row_type (t u : Trigger) :
    (restore_step_row t u).trigger_type = u.trigger_type ∨
    (restore_step_row t u).trigger_type = t.trigger_type := by
  rcases restore_step_row_cases t u with h | h | ⟨_, h⟩ <;> rw [h]
  · exact Or.inl rfl
  · exact Or.inl rfl
  · exact Or.inr rfl

/-- The row function applied to one store row by the whole remaining loop. -/
def foldRow (l : List Trigger) (x : Trigger) : Trigger :=
  l.foldl (fun y u => restore_step_row u y) x

theorem foldRow_pk (l : List Trigger) (x : Trigger) : (foldRow l x).pk = x.pk := by
  induction l generalizing x with
  | nil => rfl
  | cons u us ih =>
    show (foldRow us (restore_step_row u x)).pk = x.pk
    rw [ih (restore_step_row u x), restore_step_row_pk]

theorem foldRow_fix (l : List Trigger) (x : Trigger)
    (h : ∀ u ∈ l, restore_step_row u x = x) : foldRow l x = x := by
  induction l with
  | nil => rfl
  | cons u us ih =>
    show foldRow us (restore_step_row u x) = x
    rw [h u (List.mem_cons_self _ _)]
    exact ih (fun v hv => h v (List.mem_cons_of_mem _ hv))

theorem foldRow_type_ne (l : List Trigger) (x : Trigger) (tt : Char)
    (hx : x.trigger_type ≠ tt) (hl : ∀ u ∈ l, u.trigger_type ≠ tt) :
    (foldRow l x).trigger_type ≠ tt := by
  induction l generalizing x with
  | nil => exact hx
  | cons u us ih =>
    show (foldRow us (restore_step_row u x)).trigger_type ≠ tt
    refine ih (restore_step_row u x) ?_ (fun v hv => hl v (List.mem_cons_of_mem _ hv))
    rcases restore_step_row_type u x with h | h <;> rw [h]
    · exact hx
    · exact hl u (List.mem_cons_self _ _)

theorem restore_remaining_triggers (db : DB) (pks : List Nat) :
    (restore_remaining db pks).triggers =
      db.triggers.map (foldRow (restore_remaining_list db pks)) :=
  fold_triggers_eq_map _ db

theorem remaining_not_in_mc {db : DB} {pks : List Nat} {u : Trigger}
    (hu : u ∈ restore_remaining_list db pks) (tt : Char)
    (htt : tt = MISSED_CALL_TRIGGER ∨ tt = CATCH_ALL_TRIGGER) :
    ∀ x ∈ mcInput db pks tt, x.pk ≠ u.pk := by
  unfold restore_remaining_list at hu
  have hcond := (List.mem_filter.mp hu).2
  simp only [Bool.and_eq_true, Bool.not_eq_true'] at hcond
  intro x hx hpk
  rcases htt with rfl | rfl
  · have hmm : u.pk ∈ (mcInput db pks MISSED_CALL_TRIGGER).map (fun t => t.pk) :=
      hpk ▸ List.mem_map_of_mem _ hx
    have := hcond.1
    simp [hmm] at this
  · have hmm : u.pk ∈ (mcInput db pks CATCH_ALL_TRIGGER).map (fun t => t.pk) :=
      hpk ▸ List.mem_map_of_mem _ hx
    have := hcond.2
    simp [hmm] at this

theorem mcInput_mem {db : DB} {pks : List Nat} {tt : Char} {x : Trigger} :
    x ∈ mcInput db pks tt ↔
      (x ∈ db.triggers ∧ pks.contains x.pk = true ∧ x.trigger_type = tt) := by
  unfold mcInput inputTriggers
  constructor
  · intro h
    have h1 := List.mem_filter.mp h
    have h2 := List.mem_filter.mp h1.1
    exact ⟨h2.1, h2.2, by simpa using h1.2⟩
  · intro ⟨h1, h2, h3⟩
    exact List.mem_filter.mpr ⟨List.mem_filter.mpr ⟨h1, h2⟩, by simp [h3]⟩

theorem remaining_fix_row (db : DB) (pks : List Nat) {x : Trigger}
    (hxt : x.trigger_type = MISSED_CALL_TRIGGER ∨
           x.trigger_type = CATCH_ALL_TRIGGER)
    (hpk : ∀ u ∈ restore_remaining_list db pks, x.pk ≠ u.pk) :
    ∀ u ∈ restore_remaining_list db pks, restore_step_row u x = x := by
  intro u hu
  refine restore_step_row_fix u x (hpk u hu) ?_
  intro hd
  unfold dispCond at hd
  simp only [Bool.and_eq_true, beq_iff_eq] at hd
  have := hd.2.2
  rcases hxt with h | h <;> rw [this] at h <;> exact absurd h (by decide)

theorem remaining_fix_row_mc (db : DB) (pks : List Nat) {x : Trigger}
    (hmem : x ∈ mcInput db pks MISSED_CALL_TRIGGER ∨
            x ∈ mcInput db pks CATCH_ALL_TRIGGER) :
    ∀ u ∈ restore_remaining_list db pks, restore_step_row u x = x := by
  have hxt : x.trigger_type = MISSED_CALL_TRIGGER ∨
      x.trigger_type = CATCH_ALL_TRIGGER := by
    rcases hmem with h | h
    · exact Or.inl (mcInput_mem.mp h).2.2
    · exact Or.inr (mcInput_mem.mp h).2.2
  refine remaining_fix_row db pks hxt ?_
  intro u hu
  rcases hmem with h | h
  · exact remaining_not_in_mc hu MISSED_CALL_TRIGGER (Or.inl rfl) x h
  · exact remaining_not_in_mc hu CATCH_ALL_TRIGGER (Or.inr rfl) x h

theorem filter_map_eq {α : Type} (G : α → α) (sel : α → Bool) :
    ∀ (l : List α), (∀ x ∈ l, sel (G x) = sel x ∧ (sel x = true → G x = x)) →
    (l.map G).filter sel = l.filter sel := by
  intro l
  induction l with
  | nil => intro _; rfl
  | cons x xs ih =>
    intro h
    have hx := h x (List.mem_cons_self _ _)
    have hxs := fun y hy => h y (List.mem_cons_of_mem _ hy)
    simp only [List.map_cons, List.filter_cons]
    by_cases hs : sel x = true
    · simp only [hx.1, hs, if_true, hx.2 hs]
      rw [ih hxs]
    · have h1 : sel (G x) = false := by
        rw [hx.1]
        simpa using hs
      have h2 : sel x = false := by
        simpa using hs
      simp only [h1, h2, Bool.false_eq_true, if_false]
      exact ih hxs

/-- The remaining loop leaves every missed-call / catch-all row of the input
unchanged, so the category partitions re-read after the loop coincide with
the partitions of the initial store. -/
theorem mcInput_after_remaining (db : DB) (pks : List Nat) (tt : Char)
    (htt : tt = MISSED_CALL_TRIGGER ∨ tt = CATCH_ALL_TRIGGER) :
    mcInput (restore_remaining db pks) pks tt = mcInput db pks tt := by
  have hsel : ∀ x : Trigger, x ∈ db.triggers →
      ((fun t => (t.trigger_type == tt) && pks.contains t.pk)
          (foldRow (restore_remaining_list db pks) x) =
        (fun t => (t.trigger_type == tt) && pks.contains t.pk) x) ∧
      ((fun t => (t.trigger_type == tt) && pks.contains t.pk) x = true →
        foldRow (restore_remaining_list db pks) x = x) := by
    intro x hx
    have hfix : ((x.trigger_type == tt) && pks.contains x.pk) = true →
        foldRow (restore_remaining_list db pks) x = x := by
      intro hs
      simp only [Bool.and_eq_true, beq_iff_eq] at hs
      refine foldRow_fix _ _ (remaining_fix_row_mc db pks ?_)
      rcases htt with rfl | rfl
      · exact Or.inl (mcInput_mem.mpr ⟨hx, hs.2, hs.1⟩)
      · exact Or.inr (mcInput_mem.mpr ⟨hx, hs.2, hs.1⟩)
    refine ⟨?_, hfix⟩
    by_cases hxt2 : x.trigger_type = tt
    · by_cases hc : pks.contains x.pk = true
      · have hs : ((x.trigger_type == tt) && pks.contains x.pk) = true := by
          rw [hxt2]
          simp only [beq_self_eq_true, Bool.true_and]
          exact hc
        rw [hfix hs]
      · have hpkne : ∀ u ∈ restore_remaining_list db pks, x.pk ≠ u.pk := by
          intro u hu heq
          have hm := (remaining_mem hu).2.1
          rw [← heq] at hm
          rw [hm] at hc
          exact absurd rfl hc
        have hxmc : x.trigger_type = MISSED_CALL_TRIGGER ∨
            x.trigger_type = CATCH_ALL_TRIGGER := by
          rcases htt with rfl | rfl
          · exact Or.inl hxt2
          · exact Or.inr hxt2
        have hfold : foldRow (restore_remaining_list db pks) x = x :=
          foldRow_fix _ _ (remaining_fix_row db pks hxmc hpkne)
        rw [hfold]
    · have htyp : (foldRow (restore_remaining_list db pks) x).trigger_type ≠ tt := by
        refine foldRow_type_ne _ x tt hxt2 ?_
        intro u hu
        have := remaining_mem hu
        rcases htt with rfl | rfl
        · exact this.2.2.1
        · exact this.2.2.2
      have h1 : ((foldRow (restore_remaining_list db pks) x).trigger_type == tt) = false := by
        simp [htyp]
      have h2 : (x.trigger_type == tt) = false := by
        simp [hxt2]
      show ((foldRow (restore_remaining_list db pks) x).trigger_type == tt &&
          pks.contains (foldRow (restore_remaining_list db pks) x).pk) =
        (x.trigger_type == tt && pks.contains x.pk)
      rw [h1, h2]
      rfl
  have hmap := restore_remaining_triggers db pks
  have hfilter :
      ((restore_remaining db pks).triggers).filter
          (fun t => (t.trigger_type == tt) && pks.contains t.pk) =
        db.triggers.filter (fun t => (t.trigger_type == tt) && pks.contains t.pk) := by
    rw [hmap]
    exact filter_map_eq _ _ db.triggers hsel
  calc mcInput (restore_remaining db pks) pks tt
      = ((restore_remaining db pks).triggers).filter
          (fun t => (t.trigger_type == tt) && pks.contains t.pk) := by
        unfold mcInput inputTriggers
        rw [List.filter_filter]
    _ = db.triggers.filter (fun t => (t.trigger_type == tt) && pks.contains t.pk) :=
        hfilter
    _ = mcInput db pks tt := by
        unfold mcInput inputTriggers
        rw [List.filter_filter]

theorem step_predCat_le (t : Trigger) (tt : Char) (o : Nat)
    (htt : t.trigger_type ≠ tt) (l : List Trigger) :
    (l.map (restore_step_row t)).countP (predCat tt o) ≤ l.countP (predCat tt o) := by
  apply countP_map_le
  intro u _ hp
  rcases restore_step_row_cases t u with h | h | ⟨_, h⟩
  · rwa [h] at hp
  · rw [h, predCat_spec] at hp
    simp at hp
  · rw [h, predCat_spec] at hp
    exact absurd hp.2.2.1 htt

theorem fold_predCat_le (tt : Char) (o : Nat) :
    ∀ (l : List Trigger) (db : DB), (∀ u ∈ l, u.trigger_type ≠ tt) →
    ((l.foldl restore_step db).triggers).countP (predCat tt o) ≤
      db.triggers.countP (predCat tt o) := by
  intro l
  induction l with
  | nil => intro db _; exact le_refl _
  | cons t ts ih =>
    intro db hl
    simp only [List.foldl_cons]
    refine le_trans (ih (restore_step db t)
      (fun u hu => hl u (List.mem_cons_of_mem _ hu))) ?_
    rw [restore_step_triggers]
    exact step_predCat_le t tt o (hl t (List.mem_cons_self _ _)) db.triggers

theorem archive_predCat_row_false (o : Nat) (tt : Char) (u : Trigger) :
    predCat tt o (restore_archive_row o tt u) = false := by
  by_cases c : (u.org == o && u.trigger_type == tt && u.is_active) = true
  · have h : restore_archive_row o tt u = { u with is_archived := true } := by
      simp [restore_archive_row, c]
    rw [h]
    by_contra hp
    simp only [Bool.not_eq_false] at hp
    rw [predCat_spec] at hp
    simp at hp
  · have h : restore_archive_row o tt u = u := by
      simp [restore_archive_row, c]
    rw [h]
    by_contra hp
    simp only [Bool.not_eq_false] at hp
    rw [predCat_spec] at hp
    exact c (by simp [hp.1, hp.2.2.1, hp.2.2.2])

theorem archive_predCat_zero (l : List Trigger) (o : Nat) (tt : Char) :
    (l.map (restore_archive_row o tt)).countP (predCat tt o) = 0 := by
  rw [List.countP_eq_zero]
  intro a ha
  obtain ⟨u, _, rfl⟩ := List.mem_map.mp ha
  simp [archive_predCat_row_false]

theorem archive_pred_le (l : List Trigger) (oa : Nat) (tta tt : Char) (o : Nat) :
    (l.map (restore_archive_row oa tta)).countP (predCat tt o) ≤
      l.countP (predCat tt o) := by
  apply countP_map_le
  intro u _ hp
  rcases restore_archive_row_cases oa tta u with h | ⟨h, _⟩
  · rwa [h] at hp
  · rw [h, predCat_spec] at hp
    simp at hp

theorem save_pred_le (l : List Trigger) (s : Trigger) (tt : Char) (o : Nat)
    (h : ¬(s.trigger_type = tt ∧ s.org = o)) :
    (l.map (restore_save_row s)).countP (predCat tt o) ≤
      l.countP (predCat tt o) := by
  apply countP_map_le
  intro u _ hp
  rcases restore_save_row_cases s u with ⟨_, hr⟩ | ⟨_, hr⟩
  · rwa [hr] at hp
  · rw [hr, predCat_spec] at hp
    exact absurd ⟨hp.2.2.1, hp.2.2.2⟩ h

theorem save_after_zero_le (l : List Trigger) (s : Trigger) (p : Trigger → Bool)
    (hz : l.countP p = 0) (hN : (pkList l).Nodup) :
    (l.map (restore_save_row s)).countP p ≤ 1 := by
  rw [List.countP_map]
  have hle : l.countP (p ∘ restore_save_row s) ≤
      l.countP (fun x => x.pk == s.pk) := by
    apply List.countP_mono_left
    intro u hu hp
    simp only [Function.comp] at hp
    rcases restore_save_row_cases s u with ⟨_, hr⟩ | ⟨heq, _⟩
    · exfalso
      rw [hr] at hp
      exact (List.countP_eq_zero.mp hz u hu) hp
    · simp [heq]
  exact le_trans hle (count_pk_le_one hN s.pk)

theorem cat_branch_predCat_le (db : DB) (pks : List Nat) (ttb tt : Char) (o : Nat)
    (hN : (pkList db.triggers).Nodup)
    (hle : db.triggers.countP (predCat tt o) ≤ 1) :
    (restore_cat_branch db pks ttb).triggers.countP (predCat tt o) ≤ 1 := by
  unfold restore_cat_branch
  cases hc : selectFirstBy mcBetter (mcInput db pks ttb) with
  | none => exact hle
  | some chosen =>
    have hct : chosen.trigger_type = ttb := (mcInput_mem.mp (selectFirstBy_mem hc)).2.2
    rw [restore_save_triggers, restore_archive_triggers]
    by_cases hcase : ttb = tt ∧ chosen.org = o
    · obtain ⟨rfl, rfl⟩ := hcase
      have hz := archive_predCat_zero db.triggers chosen.org ttb
      have hN' : (pkList (db.triggers.map (restore_archive_row chosen.org ttb))).Nodup := by
        rw [pkList_map (restore_archive_row_pk chosen.org ttb)]
        exact hN
      exact save_after_zero_le _ chosen _ hz hN'
    · have hsave : ¬(chosen.trigger_type = tt ∧ chosen.org = o) := by
        intro ⟨h1, h2⟩
        exact hcase ⟨hct ▸ h1, h2⟩
      refine le_trans (save_pred_le _ chosen tt o hsave) ?_
      exact le_trans (archive_pred_le db.triggers chosen.org ttb tt o) hle

theorem cat_branch_estab (db : DB) (pks : List Nat) (tt : Char) (chosen : Trigger)
    (hN : (pkList db.triggers).Nodup)
    (hc : selectFirstBy mcBetter (mcInput db pks tt) = some chosen) :
    (restore_cat_branch db pks tt).triggers.countP (predCat tt chosen.org) ≤ 1 := by
  unfold restore_cat_branch
  rw [hc]
  rw [restore_save_triggers, restore_archive_triggers]
  have hz := archive_predCat_zero db.triggers chosen.org tt
  have hN' : (pkList (db.triggers.map (restore_archive_row chosen.org tt))).Nodup := by
    rw [pkList_map (restore_archive_row_pk chosen.org tt)]
    exact hN
  exact save_after_zero_le _ chosen _ hz hN'

theorem cat_branch_row_skip (db : DB) (pks : List Nat) (ttb : Char) {p : Nat}
    {y : Trigger} (hN : (pkList db.triggers).Nodup)
    (hrow : getRow db.triggers p = some y) (hyt : y.trigger_type ≠ ttb) :
    getRow (restore_cat_branch db pks ttb).triggers p = some y := by
  unfold restore_cat_branch
  cases hcc : selectFirstBy mcBetter (mcInput db pks ttb) with
  | none => exact hrow
  | some cch =>
    rw [restore_save_triggers, restore_archive_triggers,
      getRow_map_pkpres (restore_save_row_pk cch),
      getRow_map_pkpres (restore_archive_row_pk cch.org ttb), hrow]
    simp only [Option.map_some']
    rw [restore_archive_row_skip cch.org ttb y hyt]
    have hcchmem := mcInput_mem.mp (selectFirstBy_mem hcc)
    have hpkne : y.pk ≠ cch.pk := by
      intro he
      have h2 : getRow db.triggers cch.pk = some cch :=
        getRow_mem_nodup hN hcchmem.1
      have h3 : y.pk = p := (getRow_mem hrow).2
      rw [← h3, he] at hrow
      rw [h2] at hrow
      have : cch.trigger_type = ttb := hcchmem.2.2
      rw [(Option.some.inj hrow)] at this
      exact hyt this
    rcases restore_save_row_cases cch y with ⟨_, hr⟩ | ⟨heq, _⟩
    · rw [hr]
    · exact absurd heq hpkne

theorem cat_branch_row_chosen (db : DB) (pks : List Nat) (tt : Char)
    {chosen y : Trigger}
    (hc : selectFirstBy mcBetter (mcInput db pks tt) = some chosen)
    (hrow : getRow db.triggers chosen.pk = some y) :
    getRow (restore_cat_branch db pks tt).triggers chosen.pk =
      some { chosen with is_archived := false } := by
  unfold restore_cat_branch
  rw [hc, restore_save_triggers, restore_archive_triggers,
    getRow_map_pkpres (restore_save_row_pk chosen),
    getRow_map_pkpres (restore_archive_row_pk chosen.org tt), hrow]
  simp only [Option.map_some']
  have hpk : (restore_archive_row chosen.org tt y).pk = chosen.pk := by
    rw [restore_archive_row_pk]
    exact (getRow_mem hrow).2
  rcases restore_save_row_cases chosen (restore_archive_row chosen.org tt y) with
    ⟨hne, _⟩ | ⟨_, hr⟩
  · exact absurd hpk hne
  · rw [hr]

/-! ## C2: missed-call / catch-all exclusivity after restore -/

/-- C2: restore preserves the at-most-one-active invariant for `MissedCall`
and for `CatchAll` triggers per organization, and when the input holds
missed-call triggers it establishes it for the winner's organization: the
winner — the first trigger under the `(-last_triggered, -modified_on)`
ordering (`mcBetter`), i.e. the latest `(lastFiredAt, modifiedAt)` — ends
non-archived, while every other missed-call trigger of the input that was
archived, or is active in the winner's organization, ends archived. -/
theorem C2_restore_mc_exclusive (db : DB) (pks : List Nat) (o : Nat)
    (hN : (pkList db.triggers).Nodup) :
    (db.triggers.countP (predCat MISSED_CALL_TRIGGER o) ≤ 1 →
      ((apply_action_restore db pks).1.triggers).countP
        (predCat MISSED_CALL_TRIGGER o) ≤ 1) ∧
    (db.triggers.countP (predCat CATCH_ALL_TRIGGER o) ≤ 1 →
      ((apply_action_restore db pks).1.triggers).countP
        (predCat CATCH_ALL_TRIGGER o) ≤ 1) ∧
    (∀ chosen, selectFirstBy mcBetter (mcInput db pks MISSED_CALL_TRIGGER) = some chosen →
      ((apply_action_restore db pks).1.triggers).countP
        (predCat MISSED_CALL_TRIGGER chosen.org) ≤ 1 ∧
      getRow ((apply_action_restore db pks).1.triggers) chosen.pk =
        some { chosen with is_archived := false } ∧
      (∀ r ∈ mcInput db pks MISSED_CALL_TRIGGER, r.pk ≠ chosen.pk →
        (r.is_archived = true ∨ (r.org = chosen.org ∧ r.is_active = true)) →
        (getRow ((apply_action_restore db pks).1.triggers) r.pk).map
          (fun x => x.is_archived) = some true)) := by
  have hN1 : (pkList (restore_remaining db pks).triggers).Nodup := by
    rw [pkList_restore_remaining]
    exact hN
  have hN2 : (pkList (restore_cat_branch (restore_remaining db pks) pks
      MISSED_CALL_TRIGGER).triggers).Nodup := by
    rw [pkList_cat_branch, pkList_restore_remaining]
    exact hN
  have hsnapM : ∀ u ∈ restore_remaining_list db pks,
      u.trigger_type ≠ MISSED_CALL_TRIGGER := fun u hu => (remaining_mem hu).2.2.1
  have hsnapC : ∀ u ∈ restore_remaining_list db pks,
      u.trigger_type ≠ CATCH_ALL_TRIGGER := fun u hu => (remaining_mem hu).2.2.2
  refine ⟨?_, ?_, ?_⟩
  · intro hle
    have h1 : ((restore_remaining db pks).triggers).countP
        (predCat MISSED_CALL_TRIGGER o) ≤ 1 :=
      le_trans (fold_predCat_le MISSED_CALL_TRIGGER o _ db hsnapM) hle
    have h2 := cat_branch_predCat_le (restore_remaining db pks) pks
      MISSED_CALL_TRIGGER MISSED_CALL_TRIGGER o hN1 h1
    exact cat_branch_predCat_le _ pks CATCH_ALL_TRIGGER MISSED_CALL_TRIGGER o hN2 h2
  · intro hle
    have h1 : ((restore_remaining db pks).triggers).countP
        (predCat CATCH_ALL_TRIGGER o) ≤ 1 :=
      le_trans (fold_predCat_le CATCH_ALL_TRIGGER o _ db hsnapC) hle
    have h2 := cat_branch_predCat_le (restore_remaining db pks) pks
      MISSED_CALL_TRIGGER CATCH_ALL_TRIGGER o hN1 h1
    exact cat_branch_predCat_le _ pks CATCH_ALL_TRIGGER CATCH_ALL_TRIGGER o hN2 h2
  · intro chosen hc
    have hc1 : selectFirstBy mcBetter
        (mcInput (restore_remaining db pks) pks MISSED_CALL_TRIGGER) = some chosen := by
      rw [mcInput_after_remaining db pks MISSED_CALL_TRIGGER (Or.inl rfl)]
      exact hc
    have hchmem := mcInput_mem.mp (selectFirstBy_mem hc)
    have hrow0 : getRow db.triggers chosen.pk = some chosen :=
      getRow_mem_nodup hN hchmem.1
    have hrow1 : getRow (restore_remaining db pks).triggers chosen.pk = some chosen := by
      rw [restore_remaining_triggers,
        getRow_map_pkpres (foldRow_pk (restore_remaining_list db pks)), hrow0]
      simp only [Option.map_some']
      rw [foldRow_fix _ _ (remaining_fix_row_mc db pks (Or.inl (selectFirstBy_mem hc)))]
    refine ⟨?_, ?_, ?_⟩
    · have h2 := cat_branch_estab (restore_remaining db pks) pks
        MISSED_CALL_TRIGGER chosen hN1 hc1
      exact cat_branch_predCat_le _ pks CATCH_ALL_TRIGGER MISSED_CALL_TRIGGER
        chosen.org hN2 h2
    · have h2 : getRow (restore_cat_branch (restore_remaining db pks) pks
          MISSED_CALL_TRIGGER).triggers chosen.pk =
          some { chosen with is_archived := false } :=
        cat_branch_row_chosen _ pks MISSED_CALL_TRIGGER hc1 hrow1
      have h3 := cat_branch_row_skip (restore_cat_branch (restore_remaining db pks)
        pks MISSED_CALL_TRIGGER) pks CATCH_ALL_TRIGGER hN2 h2
        (by
          show chosen.trigger_type ≠ CATCH_ALL_TRIGGER
          rw [hchmem.2.2]
          decide)
      exact h3
    · intro r hrmem hrne hrarch
      have hrm := mcInput_mem.mp hrmem
      have hrow0r : getRow db.triggers r.pk = some r := getRow_mem_nodup hN hrm.1
      have hrow1r : getRow (restore_remaining db pks).triggers r.pk = some r := by
        rw [restore_remaining_triggers,
          getRow_map_pkpres (foldRow_pk (restore_remaining_list db pks)), hrow0r]
        simp only [Option.map_some']
        rw [foldRow_fix _ _ (remaining_fix_row_mc db pks (Or.inl hrmem))]
      set y := restore_archive_row chosen.org MISSED_CALL_TRIGGER r with hy
      have hypk : y.pk = r.pk := restore_archive_row_pk _ _ _
      have hyarch : y.is_archived = true := by
        rcases hrarch with h | ⟨horg, hact⟩
        · rcases restore_archive_row_cases chosen.org MISSED_CALL_TRIGGER r with
            hcs | ⟨hcs, _⟩
          · rw [hy, hcs]
            exact h
          · rw [hy, hcs]
        · have hcond : (r.org == chosen.org &&
              r.trigger_type == MISSED_CALL_TRIGGER && r.is_active) = true := by
            simp [horg, hrm.2.2, hact]
          rw [hy]
          simp [restore_archive_row, hcond]
      have hytype : y.trigger_type = MISSED_CALL_TRIGGER := by
        rcases restore_archive_row_cases chosen.org MISSED_CALL_TRIGGER r with
          hcs | ⟨hcs, _⟩ <;> rw [hy, hcs] <;> exact hrm.2.2
      have hrow2r : getRow (restore_cat_branch (restore_remaining db pks) pks
          MISSED_CALL_TRIGGER).triggers r.pk = some y := by
        unfold restore_cat_branch
        rw [hc1, restore_save_triggers, restore_archive_triggers,
          getRow_map_pkpres (restore_save_row_pk chosen),
          getRow_map_pkpres (restore_archive_row_pk chosen.org MISSED_CALL_TRIGGER),
          hrow1r]
        simp only [Option.map_some']
        rcases restore_save_row_cases chosen y with ⟨_, hr⟩ | ⟨heq, _⟩
        · rw [hr]
        · rw [hypk] at heq
          exact absurd heq hrne
      have h3 := cat_branch_row_skip (restore_cat_branch (restore_remaining db pks)
        pks MISSED_CALL_TRIGGER) pks CATCH_ALL_TRIGGER hN2 hrow2r
        (by
          rw [hytype]
          decide)
      have hred : (apply_action_restore db pks).1 =
          restore_cat_branch (restore_cat_branch (restore_remaining db pks) pks
            MISSED_CALL_TRIGGER) pks CATCH_ALL_TRIGGER := rfl
      rw [hred, h3]
      simp only [Option.map_some']
      rw [hyarch]

theorem getRow_exists (l : List Trigger) (p : Nat) (h : p ∈ pkList l) :
    ∃ x, getRow l p = some x ∧ x.pk = p := by
  cases hf : getRow l p with
  | some x => exact ⟨x, rfl, (getRow_mem hf).2⟩
  | none =>
    exfalso
    simp only [pkList, List.mem_map] at h
    obtain ⟨x, hx, hxpk⟩ := h
    have := List.find?_eq_none.mp hf x hx
    simp [hxpk] at this

theorem fold_getRow_fix : ∀ (l : List Trigger) (db : DB) (p : Nat) (y : Trigger),
    getRow db.triggers p = some y → (∀ u ∈ l, restore_step_row u y = y) →
    getRow ((l.foldl restore_step db).triggers) p = some y := by
  intro l
  induction l with
  | nil => intro db p y hrow _; exact hrow
  | cons u us ih =>
    intro db p y hrow hfix
    simp only [List.foldl_cons]
    refine ih (restore_step db u) p y ?_ (fun v hv => hfix v (List.mem_cons_of_mem _ hv))
    rw [restore_step_triggers, getRow_map_pkpres (restore_step_row_pk u), hrow]
    simp only [Option.map_some']
    rw [hfix u (List.mem_cons_self _ _)]

/-! ## C10: case-sensitive displacement in restore -/

/-- C10: the keyword-displacement step of `apply_action_restore` compares
keywords with exact (case-sensitive) equality, unlike the case-insensitive
matching of dispatch.  Restoring a Keyword trigger `t` with keyword `k`
leaves an active, non-archived same-org Keyword trigger `u` whose keyword
differs from `k` only in letter case completely untouched, and afterwards
both rows are active and non-archived yet match exactly the same inbound
keywords under the dispatch `iexact` test. -/
theorem C10_restore_case_sensitive_displacement (db : DB) (pks : List Nat)
    (t u : Trigger) (k kp : String)
    (hN : (pkList db.triggers).Nodup)
    (ht : t ∈ db.triggers) (htin : pks.contains t.pk = true)
    (httype : t.trigger_type = KEYWORD_TRIGGER)
    (htk : t.keyword = some k) (hkne : k ≠ "")
    (hu : u ∈ db.triggers) (hutype : u.trigger_type = KEYWORD_TRIGGER)
    (huorg : u.org = t.org) (huact : u.is_active = true)
    (huarch : u.is_archived = false)
    (huk : u.keyword = some kp) (hkk : kp ≠ k) (hlow : lowerStr kp = lowerStr k)
    (huin : pks.contains u.pk = false)
    (hnok : ∀ v ∈ db.triggers, pks.contains v.pk = true → v.pk ≠ t.pk →
      v.keyword ≠ some k)
    (hnokp : ∀ v ∈ db.triggers, pks.contains v.pk = true → v.keyword ≠ some kp) :
    getRow ((apply_action_restore db pks).1.triggers) u.pk = some u ∧
    getRow ((apply_action_restore db pks).1.triggers) t.pk =
      some { t with is_archived := false } ∧
    u.pk ≠ t.pk ∧
    (∀ kw, iexactB u.keyword kw = iexactB t.keyword kw) := by
  have hN1 : (pkList (restore_remaining db pks).triggers).Nodup := by
    rw [pkList_restore_remaining]
    exact hN
  have hN2 : (pkList (restore_cat_branch (restore_remaining db pks) pks
      MISSED_CALL_TRIGGER).triggers).Nodup := by
    rw [pkList_cat_branch, pkList_restore_remaining]
    exact hN
  have hpkne : u.pk ≠ t.pk := by
    intro h
    rw [h, htin] at huin
    simp at huin
  have hurow0 : getRow db.triggers u.pk = some u := getRow_mem_nodup hN hu
  have hufix : ∀ v ∈ restore_remaining_list db pks, restore_step_row v u = u := by
    intro v hv
    have hvm := remaining_mem hv
    refine restore_step_row_fix v u ?_ ?_
    · intro he
      rw [he, hvm.2.1] at huin
      simp at huin
    · intro hd
      unfold dispCond at hd
      simp only [Bool.and_eq_true, beq_iff_eq] at hd
      have hkv : u.keyword = v.keyword := hd.2.1.1.1.2
      rw [huk] at hkv
      exact hnokp v hvm.1 hvm.2.1 hkv.symm
  have hurow1 : getRow (restore_remaining db pks).triggers u.pk = some u := by
    rw [restore_remaining_triggers, getRow_map_pkpres
      (foldRow_pk (restore_remaining_list db pks)), hurow0]
    simp only [Option.map_some']
    rw [foldRow_fix _ _ hufix]
  have hurow2 := cat_branch_row_skip (restore_remaining db pks) pks
    MISSED_CALL_TRIGGER hN1 hurow1 (by rw [hutype]; decide)
  have hurow3 := cat_branch_row_skip _ pks CATCH_ALL_TRIGGER hN2 hurow2
    (by rw [hutype]; decide)
  have htM : t.trigger_type ≠ MISSED_CALL_TRIGGER := by rw [httype]; decide
  have htC : t.trigger_type ≠ CATCH_ALL_TRIGGER := by rw [httype]; decide
  have hrem : t ∈ restore_remaining_list db pks :=
    remaining_mem_rev hN ht htin htM htC
  obtain ⟨s1, s2, hsplit⟩ := List.append_of_mem hrem
  have hremN : (pkList (restore_remaining_list db pks)).Nodup := by
    have hsub : List.Sublist (restore_remaining_list db pks) db.triggers := by
      unfold restore_remaining_list
      exact List.Sublist.trans (List.filter_sublist _) (List.filter_sublist _)
    simp only [pkList] at hN ⊢
    exact List.Nodup.sublist (List.Sublist.map _ hsub) hN
  have hs2pk : ∀ v ∈ s2, v.pk ≠ t.pk := by
    intro v hv
    have hnotin : t.pk ∉ s2.map (fun x => x.pk) := by
      rw [hsplit] at hremN
      simp only [pkList, List.map_append, List.map_cons] at hremN
      have hsub2 : List.Sublist (t.pk :: s2.map (fun x => x.pk))
          (s1.map (fun x => x.pk) ++ t.pk :: s2.map (fun x => x.pk)) :=
        List.sublist_append_right _ _
      have h2 := List.Nodup.sublist hsub2 hremN
      rw [List.nodup_cons] at h2
      exact h2.1
    intro he
    exact hnotin (he ▸ List.mem_map_of_mem _ hv)
  have hs2fix : ∀ v ∈ s2,
      restore_step_row v ({ t with is_archived := false }) =
        { t with is_archived := false } := by
    intro v hv
    have hvrem : v ∈ restore_remaining_list db pks := by
      rw [hsplit]
      exact List.mem_append_right _ (List.mem_cons_of_mem _ hv)
    have hvm := remaining_mem hvrem
    refine restore_step_row_fix v _ ?_ ?_
    · show ({ t with is_archived := false } : Trigger).pk ≠ v.pk
      intro he
      exact (hs2pk v hv) ((congrArg id he).symm)
    · intro hd
      unfold dispCond at hd
      simp only [Bool.and_eq_true, beq_iff_eq] at hd
      have hkv : ({ t with is_archived := false } : Trigger).keyword = v.keyword :=
        hd.2.1.1.1.2
      have hvk : v.keyword = some k := by
        rw [← hkv]
        exact htk
      exact hnok v hvm.1 hvm.2.1 (hs2pk v hv) hvk
  have hfold_eq : restore_remaining db pks =
      s2.foldl restore_step (restore_step (s1.foldl restore_step db) t) := by
    unfold restore_remaining
    rw [hsplit, List.foldl_append, List.foldl_cons]
  have htpk_mem : t.pk ∈ pkList ((s1.foldl restore_step db).triggers) := by
    rw [pkList_fold]
    exact List.mem_map_of_mem _ ht
  obtain ⟨x, hxrow, hxpk⟩ := getRow_exists _ _ htpk_mem
  have hstep_row : getRow ((restore_step (s1.foldl restore_step db) t).triggers) t.pk =
      some ({ t with is_archived := false }) := by
    rw [restore_step_triggers, getRow_map_pkpres (restore_step_row_pk t), hxrow]
    simp only [Option.map_some']
    rw [restore_step_row_save t x hxpk]
  have htrow1 : getRow (restore_remaining db pks).triggers t.pk =
      some ({ t with is_archived := false }) := by
    rw [hfold_eq]
    exact fold_getRow_fix s2 _ t.pk _ hstep_row hs2fix
  have htrow2 := cat_branch_row_skip (restore_remaining db pks) pks
    MISSED_CALL_TRIGGER hN1 htrow1
    (by
      show t.trigger_type ≠ MISSED_CALL_TRIGGER
      exact htM)
  have htrow3 := cat_branch_row_skip _ pks CATCH_ALL_TRIGGER hN2 htrow2
    (by
      show t.trigger_type ≠ CATCH_ALL_TRIGGER
      exact htC)
  refine ⟨hurow3, htrow3, hpkne, ?_⟩
  intro kw
  simp [iexactB, huk, htk, hlow]

/-! ## Witnesses for C1, C2 and C10 -/

/-- Witness for C1: restoring the archived "join" trigger into a store that
already has an active "join" trigger of the same org leaves at most one
active, non-archived Keyword trigger on `(org 1, "join")`. -/
theorem C1_restore_keyword_exclusive_witness :
    ((apply_action_restore c1db [2]).1.triggers).countP (predK c1trig.org "join") ≤ 1 :=
  C1_restore_keyword_exclusive c1db [2] c1trig "join" (by decide) (by decide)
    (by decide) rfl rfl (by decide)

/-- Witness for C2: restoring two previously-archived missed-call triggers
where A's `last_triggered` (50) is later than B's (10) leaves A active and B
archived, with at most one active missed-call trigger in the org. -/
theorem C2_restore_mc_exclusive_witness :
    ((apply_action_restore c2db [1, 2]).1.triggers).countP
      (predCat MISSED_CALL_TRIGGER c2trigA.org) ≤ 1 ∧
    getRow ((apply_action_restore c2db [1, 2]).1.triggers) c2trigA.pk =
      some { c2trigA with is_archived := false } ∧
    (getRow ((apply_action_restore c2db [1, 2]).1.triggers) c2trigB.pk).map
      (fun x => x.is_archived) = some true := by
  have H := (C2_restore_mc_exclusive c2db [1, 2] 1 (by decide)).2.2 c2trigA (by decide)
  exact ⟨H.1, H.2.1, H.2.2 c2trigB (by decide) (by decide) (Or.inl rfl)⟩

/-- Witness for C10: restoring archived "join" leaves active "Join" in place:
afterwards both rows are active and non-archived, and they match exactly the
same inbound keywords under the case-insensitive dispatch test. -/
theorem C10_restore_case_sensitive_displacement_witness :
    getRow ((apply_action_restore c10db [2]).1.triggers) c10u.pk = some c10u ∧
    getRow ((apply_action_restore c10db [2]).1.triggers) c10t.pk =
      some { c10t with is_archived := false } ∧
    c10u.pk ≠ c10t.pk ∧
    iexactB c10u.keyword "join" = iexactB c10t.keyword "join" ∧
    iexactB c10t.keyword "join" = true := by
  have H := C10_restore_case_sensitive_displacement c10db [2] c10t c10u "join" "Join"
    (by decide) (by decide) (by decide) rfl rfl (by decide) (by decide) rfl rfl
    (by decide) (by decide) rfl (by decide) (by decide) (by decide) (by decide)
    (by decide)
  exact ⟨H.1, H.2.1, H.2.2.1, H.2.2.2 "join", by decide⟩

end Rapidpro
